import Mathlib

/-!
Verification development for the Limitless replication bot.

The repository has three source files: the live replication engine
(`part_000`, with `processPosition`, `replicateOpen`, `replicateClose`,
`monitorTargetWallet`), the backtesting simulator (`simulator.js`, with
`simulateBuy`, `simulateSell`, `runSimulation`) and the persistent ledger
(`tradeTracker.js`, class `TradeTracker`).

Shallow embedding conventions:
* JS `Map` objects keyed by market slug become association lists
  (`look` / `put` / `del` below).  `Map.set` replaces, which `put` models.
* JS `Number` quantities (USDC amounts, multipliers, fee basis points)
  become `ℚ`; on-chain `BigInt` quantities become `ℤ`.
* `BigInt(x.toString())` on a float `x` succeeds exactly when `x` is an
  integer; `numericString` models this by returning `none` on a
  non-integral rational.
* Chain interactions (balance reads, approvals, gas estimation,
  transaction submission/confirmation) are abstracted into a `ChainEnv`
  of per-market outcomes; every early-`return` of the JS legs is kept.
-/

namespace LimitlessBot

/-! ### Association lists modelling JS `Map` keyed by market slug -/

def look {α : Type} : List (String × α) → String → Option α
  | [], _ => none
  | (k, v) :: t, k2 => if k = k2 then some v else look t k2

def del {α : Type} (m : List (String × α)) (k : String) : List (String × α) :=
  m.filter (fun p => decide (p.1 ≠ k))

def put {α : Type} (m : List (String × α)) (k : String) (v : α) : List (String × α) :=
  (k, v) :: del m k

/-! ### TradeTracker (tradeTracker.js) -/

inductive TType
  | BUY
  | SELL
deriving DecidableEq, Repr

inductive TStatus
  | OPEN
  | CLOSED
deriving DecidableEq, Repr

def TType.isBuy : TType → Bool
  | .BUY => true
  | .SELL => false

def TType.isSell : TType → Bool
  | .BUY => false
  | .SELL => true

def TStatus.isOpenStatus : TStatus → Bool
  | .OPEN => true
  | .CLOSED => false

/-- One ledger entry of `TradeTracker` (tradeTracker.js `recordBuy` /
`recordSell` object literals), restricted to the fields the claims are
about.  Monetary fields are `Option ℤ`: `none` models a JS `null` or a
string that `BigInt(...)` cannot parse. -/
structure Trade where
  id : ℕ
  ttype : TType
  marketSlug : String
  outcome : ℕ
  investmentAmount : Option ℤ
  returnAmount : Option ℤ
  actualReturnReceived : Option ℤ
  status : TStatus
  relatedBuyTradeId : Option ℕ
  realizedPnL : Option ℤ
deriving DecidableEq, Repr

def Trade.isOpenBuy (t : Trade) : Bool :=
  t.ttype.isBuy && t.status.isOpenStatus

/-- The tracker's in-memory state: the `this.trades` array plus a counter
standing in for `generateTradeId` (ids are fresh and increasing). -/
structure TrackerState where
  trades : List Trade
  nextId : ℕ
deriving DecidableEq, Repr

def emptyTracker : TrackerState := { trades := [], nextId := 0 }

/-- Input of `recordBuy` (the fields used by the claims). -/
structure BuyData where
  marketSlug : String
  outcome : ℕ
  investmentAmount : Option ℤ
deriving DecidableEq, Repr

/-- Input of `recordSell`. -/
structure SellData where
  marketSlug : String
  outcome : ℕ
  returnAmount : Option ℤ
  actualReturnReceived : Option ℤ
  relatedBuyTradeId : Option ℕ
  pnlAmount : Option ℤ
deriving DecidableEq, Repr

/-- Input of `closeTrade` (the `closeData` object; only `realizedPnL`
matters to the claims). -/
structure CloseData where
  realizedPnL : Option ℤ
deriving DecidableEq, Repr

/-- tradeTracker.js `closeTrade` applied to a single entry: the entry with
the given id transitions to CLOSED and gets its `realizedPnL` set; every
other entry is untouched. -/
def closeOne (tid : ℕ) (c : CloseData) (t : Trade) : Trade :=
  if t.id = tid then { t with status := TStatus.CLOSED, realizedPnL := c.realizedPnL } else t

/-- tradeTracker.js `closeTrade(tradeId, closeData)`. -/
def closeTrade (s : TrackerState) (tid : ℕ) (c : CloseData) : TrackerState :=
  { s with trades := s.trades.map (closeOne tid c) }

/-- The predicate of tradeTracker.js `findOpenBuy`: an OPEN BUY entry
for the given market and outcome. -/
def isOpenBuyFor (slug : String) (outc : ℕ) (t : Trade) : Bool :=
  t.isOpenBuy && decide (t.marketSlug = slug) && decide (t.outcome = outc)

/-- tradeTracker.js `findOpenBuy(marketSlug, outcome)`: `Array.find`
returns the FIRST entry (insertion order) that is an OPEN BUY for the
market and outcome. -/
def findOpenBuy (ts : List Trade) (slug : String) (outc : ℕ) : Option Trade :=
  ts.find? (isOpenBuyFor slug outc)

/-- tradeTracker.js `recordBuy(data)`: append a fresh OPEN BUY entry and
return its id. -/
def recordBuy (s : TrackerState) (d : BuyData) : TrackerState × ℕ :=
  let t : Trade :=
    { id := s.nextId, ttype := TType.BUY, marketSlug := d.marketSlug, outcome := d.outcome
      investmentAmount := d.investmentAmount, returnAmount := none, actualReturnReceived := none
      status := TStatus.OPEN, relatedBuyTradeId := none, realizedPnL := none }
  ({ trades := s.trades ++ [t], nextId := s.nextId + 1 }, s.nextId)

/-- tradeTracker.js `recordSell(data)`: append a SELL entry; if the caller
gave `relatedBuyTradeId` close that trade, otherwise auto-link to
`findOpenBuy(marketSlug, outcome)` (the first open buy in insertion
order) and close it, storing its id on the sell entry. -/
def recordSell (s : TrackerState) (d : SellData) : TrackerState × ℕ :=
  let link : Option ℕ :=
    match d.relatedBuyTradeId with
    | some i => some i
    | none => (findOpenBuy s.trades d.marketSlug d.outcome).map (fun t => t.id)
  let sellTrade : Trade :=
    { id := s.nextId, ttype := TType.SELL, marketSlug := d.marketSlug, outcome := d.outcome
      investmentAmount := none, returnAmount := d.returnAmount
      actualReturnReceived := d.actualReturnReceived
      status := TStatus.CLOSED, relatedBuyTradeId := link, realizedPnL := none }
  let closed : List Trade :=
    match link with
    | some i => s.trades.map (closeOne i { realizedPnL := d.pnlAmount })
    | none => s.trades
  ({ trades := closed ++ [sellTrade], nextId := s.nextId + 1 }, s.nextId)

/-- tradeTracker.js `getOpenPositions()`: all OPEN BUY entries. -/
def getOpenPositions (s : TrackerState) : List Trade :=
  s.trades.filter Trade.isOpenBuy

/-- Contribution of a BUY entry to `totalInvested` in `updateStats`: the
parsed `investmentAmount`, or nothing (the `try`/`catch` skips the entry). -/
def buyInvestedValue (t : Trade) : ℤ :=
  match t.investmentAmount with
  | some v => v
  | none => 0

/-- Contribution of a SELL entry to `totalReturned` in `updateStats`:
`actualReturnReceived` preferred, else `returnAmount`, else nothing. -/
def sellReturnValue (t : Trade) : ℤ :=
  match t.actualReturnReceived with
  | some v => v
  | none =>
    match t.returnAmount with
    | some v => v
    | none => 0

/-- `updateStats`: a closed BUY counts as profitable when its
`realizedPnL` parses to a positive integer (`BigInt(t.realizedPnL) > 0n`;
unparseable or absent counts as not profitable). -/
def isProfitableClosed (t : Trade) : Bool :=
  match t.realizedPnL with
  | some v => decide (0 < v)
  | none => false

/-- `Number.prototype.toFixed(2)` as applied when storing the win rate
(tradeTracker.js line 354): the value rounded to two decimal places
(ties round up, matching `toFixed` on the non-negative win rates that
occur here). -/
def toFixed2 (q : ℚ) : ℚ :=
  ((round (q * 100) : ℤ) : ℚ) / 100

/-- Derived statistics (tradeTracker.js `this.stats`). -/
structure Stats where
  totalTrades : ℕ
  totalBuys : ℕ
  totalSells : ℕ
  totalInvested : ℤ
  totalReturned : ℤ
  totalPnL : ℤ
  activePositions : ℕ
  closedPositions : ℕ
  winRate : ℚ
deriving DecidableEq, Repr

/-- tradeTracker.js `updateStats()`: monetary sums are exact `BigInt`
(here `ℤ`) folds over the entry list; `winRate` is
`profitable / closed * 100` (or `0` when nothing is closed), stored
rounded to two decimals by `winRate.toFixed(2)` (line 354). -/
def updateStats (ts : List Trade) : Stats :=
  let buys := ts.filter (fun t => t.ttype.isBuy)
  let sells := ts.filter (fun t => t.ttype.isSell)
  let openPositions := buys.filter (fun t => t.status.isOpenStatus)
  let closedPositions := buys.filter (fun t => !t.status.isOpenStatus)
  let totalInvested := buys.foldl (fun acc t => acc + buyInvestedValue t) 0
  let totalReturned := sells.foldl (fun acc t => acc + sellReturnValue t) 0
  let profitableClosedTrades := closedPositions.filter isProfitableClosed
  { totalTrades := ts.length
    totalBuys := buys.length
    totalSells := sells.length
    totalInvested := totalInvested
    totalReturned := totalReturned
    totalPnL := totalReturned - totalInvested
    activePositions := openPositions.length
    closedPositions := closedPositions.length
    winRate :=
      toFixed2
        (if 0 < closedPositions.length then
          ((profitableClosedTrades.length : ℚ) / (closedPositions.length : ℚ)) * 100
        else 0) }

/-- Count of profitable closed BUY entries (the `profitableClosedTrades`
filter in `updateStats`). -/
def profitableClosedCount (ts : List Trade) : ℕ :=
  (((ts.filter (fun t => t.ttype.isBuy)).filter
      (fun t => !t.status.isOpenStatus)).filter isProfitableClosed).length

/-! ### Tracker operation sequences (for the per-market-uniqueness claim) -/

/-- One mutating ledger operation. -/
inductive TrackerOp
  | buyOp (d : BuyData)
  | sellOp (d : SellData)
  | closeOp (tid : ℕ) (c : CloseData)
deriving DecidableEq, Repr

def applyOp (s : TrackerState) : TrackerOp → TrackerState
  | .buyOp d => (recordBuy s d).1
  | .sellOp d => (recordSell s d).1
  | .closeOp tid c => closeTrade s tid c

/-- No OPEN BUY exists for a market (any outcome). -/
def NoOpenBuyFor (s : TrackerState) (slug : String) : Prop :=
  ∀ t ∈ s.trades, ¬(t.isOpenBuy = true ∧ t.marketSlug = slug)

/-- A sequence of ledger operations is guarded when each `recordBuy` of a
market is performed only while the tracker holds no OPEN BUY for that
market. -/
def Guarded : TrackerState → List TrackerOp → Prop
  | _, [] => True
  | s, op :: rest =>
    (match op with
     | .buyOp d => NoOpenBuyFor s d.marketSlug
     | _ => True) ∧ Guarded (applyOp s op) rest

/-- The spec's invariant: `getOpenPositions()` never holds two entries for
the same market. -/
def UniqueOpenMarkets (s : TrackerState) : Prop :=
  (getOpenPositions s).Pairwise (fun a b => a.marketSlug ≠ b.marketSlug)

instance (s : TrackerState) (slug : String) : Decidable (NoOpenBuyFor s slug) :=
  List.decidableBAll _ s.trades

instance (s : TrackerState) : Decidable (UniqueOpenMarkets s) := by
  unfold UniqueOpenMarkets
  infer_instance

/-! ### Configuration and trade sizing -/

/-- Live bot configuration (part_000 lines 13-41): the environment values
the startup code reads, plus the three sizing parameters.  `rpcUrl`,
`targetWalletValid` and `privateKey` model the three values whose absence
makes startup exit. -/
structure LiveConfig where
  rpcUrl : Option String
  targetWalletValid : Bool
  privateKey : Option String
  multiplier : ℚ
  minBet : ℚ
  maxBet : ℚ
deriving DecidableEq, Repr

/-- part_000 lines 27-38: the only fatal startup validation.  It checks
`RPC_URL`, `TARGET_WALLET` and `PRIVATE_KEY` and nothing else; there is no
check relating `MIN_BET_USDC` and `MAX_BET_USDC`. -/
def startupFatalError (c : LiveConfig) : Option String :=
  if c.rpcUrl.isNone then some "RPC_URL is required"
  else if c.targetWalletValid = false then some "Valid TARGET_WALLET is required"
  else if c.privateKey.isNone then some "PRIVATE_KEY is required"
  else none

/-- part_000 line 419 (`replicateOpen`):
`Math.max(MIN_BET_USDC, Math.min(MAX_BET_USDC, MIN_BET_USDC * BET_MULTIPLIER))`.
Note the multiplicand is `MIN_BET_USDC`, not the target's investment. -/
def liveSizedInvestment (c : LiveConfig) : ℚ :=
  max c.minBet (min c.maxBet (c.minBet * c.multiplier))

/-- Simulator configuration (simulator.js lines 13-19). -/
structure SimConfig where
  startingBalance : ℚ
  multiplier : ℚ
  minBet : ℚ
  maxBet : ℚ
  slippageBps : ℚ
  feeBps : ℚ
deriving DecidableEq, Repr

/-- simulator.js lines 56-57 (`simulateBuy`):
`targetInvestment * BET_MULTIPLIER` clamped by
`Math.max(MIN_BET_USDC, Math.min(MAX_BET_USDC, ...))`. -/
def simSizedInvestment (c : SimConfig) (targetInvestment : ℚ) : ℚ :=
  max c.minBet (min c.maxBet (targetInvestment * c.multiplier))

/-- Modelled from the spec (section 4.2 Trade Sizer): the spec's formula
`clamp(targetInvestment * multiplier, min, max)`, written here only to be
compared against the two source-derived sizing functions. -/
def specSizeClamp (targetInvestment multiplier lo hi : ℚ) : ℚ :=
  max lo (min hi (targetInvestment * multiplier))

/-- `BigInt(x.toString())` on a JS float `x` succeeds exactly when `x` is
integral; JS floats become `ℚ` here, so: `some` the numerator when the
denominator is 1, else `none`. -/
def numericString (q : ℚ) : Option ℤ :=
  if q.den = 1 then some q.num else none

/-- `ethers.parseUnits(q.toFixed(6), 6)` (part_000 line 420, with the
USDC 6-decimals collateral): round to integer millionths. -/
def parseUnits6 (q : ℚ) : ℤ :=
  round (q * 1000000)

/-! ### Position feed data model (shared by the live engine and the simulator) -/

/-- The feed's market object (the fields the engine reads). -/
structure MarketInfo where
  slug : Option String
  status : String
  closed : Bool
  title : String
  address : Option String
  winningOutcomeIndex : Option ℕ
deriving DecidableEq, Repr

/-- `position.tokensBalance`: integer token balances parsed per outcome. -/
structure TokensBalance where
  yes : ℤ
  no : ℤ
deriving DecidableEq, Repr

/-- One element of the feed's position list.  `costYes`/`costNo` are
`pos.positions[outcome].cost`, `marketValueYes`/`marketValueNo` are
`pos.positions[outcome].marketValue` and `latestYesPrice`/`latestNoPrice`
are `pos.latestTrade.latest{Yes,No}Price` (simulator only). -/
structure TargetPosition where
  market : Option MarketInfo
  tokensBalance : Option TokensBalance
  costYes : Option ℚ
  costNo : Option ℚ
  marketValueYes : Option ℚ
  marketValueNo : Option ℚ
  latestYesPrice : Option ℚ
  latestNoPrice : Option ℚ
deriving DecidableEq, Repr

/-- part_000 lines 329-347 (and simulator.js lines 229-241): which
outcome the target currently holds, and its balance.  Yes wins a tie on
strictly larger balance; both-zero (or both-nonpositive) is `none`. -/
def determineTargetOutcome (yesBalance noBalance : ℤ) : Option (ℕ × ℤ) :=
  if 0 < yesBalance ∧ noBalance = 0 then some (1, yesBalance)
  else if 0 < noBalance ∧ yesBalance = 0 then some (0, noBalance)
  else if 0 < yesBalance ∧ 0 < noBalance then
    if noBalance < yesBalance then some (1, yesBalance) else some (0, noBalance)
  else none

/-! ### Live replication engine (part_000) -/

/-- `lastSeenPositions` map values (part_000 line 44). -/
structure LastSeen where
  outcomeIndex : ℕ
  tokensBalance : ℤ
deriving DecidableEq, Repr

/-- `ourPositions` map values (part_000 lines 45, 461-467, 488): the
invested amount in collateral units and the back-reference into the
tracker set right after `recordBuy`. -/
structure OurPos where
  outcomeIndex : ℕ
  amount : ℤ
  tradeId : Option ℕ
deriving DecidableEq, Repr

/-- The engine's mutable state: the two slug-keyed maps, the cold-start
flag (part_000 line 46) and the trade tracker. -/
structure EngineState where
  lastSeen : List (String × LastSeen)
  ourPos : List (String × OurPos)
  isInitialSync : Bool
  tracker : TrackerState
deriving DecidableEq, Repr

/-- Outcomes of the chain interactions of one leg, per market slug: the
wallet's USDC balance read, whether each approval / gas estimate /
transaction-and-confirmation step succeeds, and the ERC1155 position
balance read by the close leg.  Every early `return` in
`replicateOpen`/`replicateClose` corresponds to one of these. -/
structure ChainEnv where
  usdcBalance : String → ℚ
  approvalOk : String → Bool
  gasOk : String → Bool
  txOk : String → Bool
  erc1155Balance : String → ℤ
  erc1155ApprovalOk : String → Bool
  sellGasOk : String → Bool
  sellTxOk : String → Bool

/-- part_000 `replicateOpen` (lines 401-494): skip when the market has no
address; size the investment (line 419); skip on insufficient USDC, on
approval failure, on gas-estimate failure, and on transaction failure;
on success store the `ourPositions` entry and record the BUY, attaching
the returned trade id. -/
def replicateOpen (cfg : LiveConfig) (env : ChainEnv) (s : EngineState)
    (slug : String) (mkt : MarketInfo) (outcomeIndex : ℕ) : EngineState :=
  if mkt.address.isNone then s
  else
    let ourInvestmentNumber := liveSizedInvestment cfg
    if env.usdcBalance slug < ourInvestmentNumber then s
    else if !env.approvalOk slug then s
    else if !env.gasOk slug then s
    else if !env.txOk slug then s
    else
      let investment := parseUnits6 ourInvestmentNumber
      let r := recordBuy s.tracker
        { marketSlug := slug, outcome := outcomeIndex, investmentAmount := some investment }
      { s with
          ourPos := put s.ourPos slug
            { outcomeIndex := outcomeIndex, amount := investment, tradeId := some r.2 }
          tracker := r.1 }

/-- part_000 `replicateClose` (lines 497-594): no-op unless a matching
`ourPositions` entry exists for the outcome; a missing market address or
a zero ERC1155 balance removes the entry without selling; approval /
gas / transaction failures leave everything untouched; on success record
the SELL (return amount is the invested amount minus a 1% safety margin,
`BigInt` division truncating) linked to the stored buy trade id, and
remove the entry. -/
def replicateClose (_cfg : LiveConfig) (env : ChainEnv) (s : EngineState)
    (slug : String) (mkt : MarketInfo) (outcomeIndex : ℕ) : EngineState :=
  match look s.ourPos slug with
  | none => s
  | some ourPosition =>
    if ourPosition.outcomeIndex ≠ outcomeIndex then s
    else if mkt.address.isNone then { s with ourPos := del s.ourPos slug }
    else if env.erc1155Balance slug = 0 then { s with ourPos := del s.ourPos slug }
    else if !env.erc1155ApprovalOk slug then s
    else if !env.sellGasOk slug then s
    else if !env.sellTxOk slug then s
    else
      let investedAmount := ourPosition.amount
      let returnAmount := investedAmount - investedAmount / 100
      let r := recordSell s.tracker
        { marketSlug := slug, outcome := outcomeIndex
          returnAmount := some returnAmount, actualReturnReceived := some returnAmount
          relatedBuyTradeId := ourPosition.tradeId
          pnlAmount := some (returnAmount - investedAmount) }
      { s with ourPos := del s.ourPos slug, tracker := r.1 }

/-- part_000 `processPosition` (lines 308-398). -/
def processPosition (cfg : LiveConfig) (env : ChainEnv) (s : EngineState)
    (d : TargetPosition) : EngineState :=
  match d.market with
  | none => s
  | some mkt =>
    match mkt.slug with
    | none => s
    | some slug =>
      if mkt.status = "RESOLVED" ∨ mkt.closed = true then s
      else
        match d.tokensBalance with
        | none => s
        | some tb =>
          match determineTargetOutcome tb.yes tb.no with
          | none =>
            match look s.lastSeen slug with
            | none => s
            | some lastSeenPos =>
              let s1 := replicateClose cfg env s slug mkt lastSeenPos.outcomeIndex
              { s1 with lastSeen := del s1.lastSeen slug }
          | some (targetOutcome, targetBalance) =>
            match look s.lastSeen slug with
            | none =>
              if s.isInitialSync then
                { s with lastSeen := put s.lastSeen slug ⟨targetOutcome, targetBalance⟩ }
              else
                let s1 := replicateOpen cfg env s slug mkt targetOutcome
                { s1 with lastSeen := put s1.lastSeen slug ⟨targetOutcome, targetBalance⟩ }
            | some lastSeenPos =>
              if lastSeenPos.outcomeIndex ≠ targetOutcome then
                let s1 := replicateClose cfg env s slug mkt lastSeenPos.outcomeIndex
                let s2 := replicateOpen cfg env s1 slug mkt targetOutcome
                { s2 with lastSeen := put s2.lastSeen slug ⟨targetOutcome, targetBalance⟩ }
              else
                { s with lastSeen := put s.lastSeen slug ⟨targetOutcome, targetBalance⟩ }

/-- part_000 `monitorTargetWallet`'s `poll` body (lines 275-301): an empty
snapshot returns early (the flag survives); otherwise every position is
processed sequentially and only then is `isInitialSync` cleared. -/
def runPoll (cfg : LiveConfig) (env : ChainEnv) (s : EngineState)
    (positions : List TargetPosition) : EngineState :=
  if positions.isEmpty then s
  else
    let s1 := positions.foldl (processPosition cfg env) s
    { s1 with isInitialSync := false }

/-- The data `processPosition` extracts before reaching its diff logic:
the market, its slug, the determined outcome and balance — `none` when
any of the early returns (no market, no slug, resolved/closed market, no
balances, no determinable outcome) fires. -/
def replicableView (d : TargetPosition) : Option (MarketInfo × String × ℕ × ℤ) :=
  match d.market with
  | none => none
  | some mkt =>
    match mkt.slug with
    | none => none
    | some slug =>
      if mkt.status = "RESOLVED" ∨ mkt.closed = true then none
      else
        match d.tokensBalance with
        | none => none
        | some tb =>
          match determineTargetOutcome tb.yes tb.no with
          | none => none
          | some (targetOutcome, targetBalance) => some (mkt, slug, targetOutcome, targetBalance)

/-- The tail of `processPosition` once a replicable view has been
extracted (the OPENED / SWITCHED / same-position branches). -/
def ppReplicableStep (cfg : LiveConfig) (env : ChainEnv) (s : EngineState)
    (mkt : MarketInfo) (slug : String) (targetOutcome : ℕ) (targetBalance : ℤ) : EngineState :=
  match look s.lastSeen slug with
  | none =>
    if s.isInitialSync then
      { s with lastSeen := put s.lastSeen slug ⟨targetOutcome, targetBalance⟩ }
    else
      let s1 := replicateOpen cfg env s slug mkt targetOutcome
      { s1 with lastSeen := put s1.lastSeen slug ⟨targetOutcome, targetBalance⟩ }
  | some lastSeenPos =>
    if lastSeenPos.outcomeIndex ≠ targetOutcome then
      let s1 := replicateClose cfg env s slug mkt lastSeenPos.outcomeIndex
      let s2 := replicateOpen cfg env s1 slug mkt targetOutcome
      { s2 with lastSeen := put s2.lastSeen slug ⟨targetOutcome, targetBalance⟩ }
    else
      { s with lastSeen := put s.lastSeen slug ⟨targetOutcome, targetBalance⟩ }

/-- The slugs of the replicable positions of a snapshot, in feed order. -/
def slugsOf (ps : List TargetPosition) : List String :=
  ps.filterMap (fun d => (replicableView d).map (fun v => v.2.1))

/-- The engine's state on a true cold start: empty maps, the initial-sync
flag set, an empty tracker (part_000 lines 44-46, 629). -/
def coldState : EngineState :=
  { lastSeen := [], ourPos := [], isInitialSync := true, tracker := emptyTracker }

/-- The (type, market) footprint of a ledger entry, used to state
ordering properties of appended entries. -/
def tradeTag (t : Trade) : TType × String :=
  (t.ttype, t.marketSlug)

/-! ### Simulation harness (simulator.js) -/

/-- `this.positions` map values (simulator.js lines 74-81). -/
structure SimPos where
  outcome : ℕ
  outcomeLabel : String
  invested : ℚ
  tokens : ℚ
  marketTitle : String
deriving DecidableEq, Repr

/-- The simulator's state: virtual balance, open positions, tracker. -/
structure SimState where
  balance : ℚ
  positions : List (String × SimPos)
  tracker : TrackerState
deriving DecidableEq, Repr

def initSimState (c : SimConfig) : SimState :=
  { balance := c.startingBalance, positions := [], tracker := emptyTracker }

/-- simulator.js `simulateBuy` (lines 54-99): clamp the investment; fail
(returning `false`, with nothing changed) when the balance is short;
otherwise deduct the investment, store the position (tokens are the
investment net of slippage), and record the BUY. -/
def simulateBuy (cfg : SimConfig) (s : SimState) (marketSlug marketTitle : String)
    (outcome : ℕ) (outcomeLabel : String) (targetInvestment : ℚ) : SimState × Bool :=
  let ourInvestment := simSizedInvestment cfg targetInvestment
  if s.balance < ourInvestment then (s, false)
  else
    let slippageLoss := ourInvestment * (cfg.slippageBps / 10000)
    let effectiveInvestment := ourInvestment - slippageLoss
    let tokens := effectiveInvestment
    let r := recordBuy s.tracker
      { marketSlug := marketSlug, outcome := outcome
        investmentAmount := numericString (ourInvestment * 1000000) }
    ({ balance := s.balance - ourInvestment
       positions := put s.positions marketSlug
         { outcome := outcome, outcomeLabel := outcomeLabel, invested := ourInvestment
           tokens := tokens, marketTitle := marketTitle }
       tracker := r.1 }, true)

/-- The gross return of simulator.js `simulateSell` (lines 111-125): on
a resolved market, the fee-adjusted invested amount on a win and zero on
a loss; otherwise the market-value estimate (zero is falsy in JS and
falls back, like a missing estimate, to 95% of the invested amount). -/
def sellReturnAmount (cfg : SimConfig) (position : SimPos) (outcome : ℕ)
    (marketValue : Option ℚ) (winningOutcome : Option ℕ) : ℚ :=
  match winningOutcome with
  | some w =>
    if w = outcome then position.invested * (1 - cfg.feeBps / 10000) else 0
  | none =>
    match marketValue with
    | some mv => if mv = 0 then position.invested * (95 / 100) else mv
    | none => position.invested * (95 / 100)

/-- simulator.js `simulateSell` (lines 104-161): no-op (returning
`false`) without a matching position; otherwise compute the gross
return, apply the fee, credit the balance, record the SELL (auto-linked:
the simulator passes no `relatedBuyTradeId`), drop the position. -/
def simulateSell (cfg : SimConfig) (s : SimState) (marketSlug : String) (outcome : ℕ)
    (marketValue : Option ℚ) (winningOutcome : Option ℕ) : SimState × Bool :=
  match look s.positions marketSlug with
  | none => (s, false)
  | some position =>
    if position.outcome ≠ outcome then (s, false)
    else
      let returnAmount : ℚ := sellReturnAmount cfg position outcome marketValue winningOutcome
      let feeLoss := returnAmount * (cfg.feeBps / 10000)
      let netReturn := returnAmount - feeLoss
      let pnlAmount := netReturn - position.invested
      let r := recordSell s.tracker
        { marketSlug := marketSlug, outcome := outcome
          returnAmount := numericString (netReturn * 1000000)
          actualReturnReceived := numericString (netReturn * 1000000)
          relatedBuyTradeId := none
          pnlAmount := numericString (pnlAmount * 1000000) }
      ({ balance := s.balance + netReturn
         positions := del s.positions marketSlug
         tracker := r.1 }, true)

/-- simulator.js `estimateMarketValue` (lines 166-186): the API market
value (truthy, scaled from millionths) if present, else invested times
the latest price (truthy), else nothing. -/
def estimateMarketValue (position : SimPos) (d : TargetPosition) : Option ℚ :=
  let mv := if position.outcome = 0 then d.marketValueNo else d.marketValueYes
  let priceFallback : Option ℚ :=
    match (if position.outcome = 0 then d.latestNoPrice else d.latestYesPrice) with
    | some pr => if pr = 0 then none else some (position.invested * pr)
    | none => none
  match mv with
  | some v => if v = 0 then priceFallback else some (v / 1000000)
  | none => priceFallback

/-- simulator.js `runSimulation`, body of the per-position loop
(lines 215-284): determine the target's outcome (skipping
indeterminate positions), estimate the target's investment from the cost
field (zero or missing cost falls back to the minimum bet), then: a
resolved market sells any held position by resolution; an active market
buys when no position is held, sells-then-buys when the target switched
sides, and does nothing when already holding the same side. -/
def simStep (cfg : SimConfig) (s : SimState) (d : TargetPosition) : SimState :=
  match d.market with
  | none => s
  | some mkt =>
    match mkt.slug with
    | none => s
    | some slug =>
      match d.tokensBalance with
      | none => s
      | some tb =>
        match determineTargetOutcome tb.yes tb.no with
        | none => s
        | some (targetOutcome, _) =>
          let outcomeLabel := if targetOutcome = 1 then "YES" else "NO"
          let costRaw := if targetOutcome = 0 then d.costNo else d.costYes
          let targetInvestment : ℚ :=
            match costRaw with
            | some c => if c = 0 then cfg.minBet else c / 1000000
            | none => cfg.minBet
          if mkt.status = "RESOLVED" then
            match look s.positions slug with
            | some p => (simulateSell cfg s slug p.outcome none mkt.winningOutcomeIndex).1
            | none => s
          else
            match look s.positions slug with
            | none =>
              (simulateBuy cfg s slug mkt.title targetOutcome outcomeLabel targetInvestment).1
            | some ourPosition =>
              if ourPosition.outcome ≠ targetOutcome then
                let mv := estimateMarketValue ourPosition d
                let s1 := (simulateSell cfg s slug ourPosition.outcome mv none).1
                (simulateBuy cfg s1 slug mkt.title targetOutcome outcomeLabel targetInvestment).1
              else s

/-- One direct call into the simulator's trading primitives (for stating
properties of arbitrary call sequences). -/
inductive SimOp
  | buyCall (marketSlug marketTitle : String) (outcome : ℕ) (outcomeLabel : String)
      (targetInvestment : ℚ)
  | sellCall (marketSlug : String) (outcome : ℕ) (marketValue : Option ℚ)
      (winningOutcome : Option ℕ)

def applySimOp (cfg : SimConfig) (s : SimState) : SimOp → SimState
  | .buyCall slug title outc lab t => (simulateBuy cfg s slug title outc lab t).1
  | .sellCall slug outc mv w => (simulateSell cfg s slug outc mv w).1

/-- A sell call's market-value estimate is non-negative (the claim's
"fees and returns being non-negative" side condition). -/
def SimOpOk : SimOp → Prop
  | .buyCall _ _ _ _ _ => True
  | .sellCall _ _ mv _ => ∀ v, mv = some v → 0 ≤ v

/-- The configured fee is a sane basis-points percentage and the minimum
bet is non-negative. -/
def SimConfigOk (cfg : SimConfig) : Prop :=
  0 ≤ cfg.minBet ∧ 0 ≤ cfg.feeBps ∧ cfg.feeBps ≤ 10000

/-- The simulator's balance is non-negative, and so is every held
position's invested amount. -/
def SimInv (s : SimState) : Prop :=
  0 ≤ s.balance ∧ ∀ p ∈ s.positions, 0 ≤ p.2.invested

/-- Every position of the snapshot is replicable (well-formed active
market with a determinable outcome). -/
def AllReplicable (ps : List TargetPosition) : Prop :=
  ∀ d ∈ ps, (replicableView d).isSome

instance (ps : List TargetPosition) : Decidable (AllReplicable ps) :=
  List.decidableBAll _ ps

/-- Every replicable position of the snapshot is unseen in the state
(the cold-start precondition). -/
def AllUnseen (s : EngineState) (ps : List TargetPosition) : Prop :=
  ∀ d ∈ ps, ∀ mkt slug o b, replicableView d = some (mkt, slug, o, b) →
    look s.lastSeen slug = none

/-- The state's last-seen map agrees with every replicable position of
the snapshot (same outcome recorded). -/
def AllSeenSame (s : EngineState) (ps : List TargetPosition) : Prop :=
  ∀ d ∈ ps, ∀ mkt slug o b, replicableView d = some (mkt, slug, o, b) →
    ∃ ls, look s.lastSeen slug = some ls ∧ ls.outcomeIndex = o

/-! ### Concrete example inputs used by counterexamples and witnesses -/

/-- Live configuration of the spec's clamping example: multiplier 0.5,
min 5, max 50, with all required startup values present. -/
def exLiveConfig : LiveConfig :=
  { rpcUrl := some "https://mainnet.base.org", targetWalletValid := true
    privateKey := some "0xabc", multiplier := 1 / 2, minBet := 5, maxBet := 50 }

/-- Simulator configuration of the spec's clamping example. -/
def exSimConfig : SimConfig :=
  { startingBalance := 100, multiplier := 1 / 2, minBet := 5, maxBet := 50
    slippageBps := 200, feeBps := 100 }

/-- A configuration with `min > max` (10 > 5) and all required startup
values present. -/
def badMinMaxConfig : LiveConfig :=
  { rpcUrl := some "https://mainnet.base.org", targetWalletValid := true
    privateKey := some "0xabc", multiplier := 1, minBet := 10, maxBet := 5 }

/-- A simulator configuration with `min > max` (10 > 5). -/
def badMinMaxSimConfig : SimConfig :=
  { startingBalance := 100, multiplier := 1, minBet := 10, maxBet := 5
    slippageBps := 200, feeBps := 100 }

/-- A single closed profitable BUY entry. -/
def exClosedProfitableBuy : Trade :=
  { id := 0, ttype := TType.BUY, marketSlug := "mkt-a", outcome := 1
    investmentAmount := some 10, returnAmount := none, actualReturnReceived := none
    status := TStatus.CLOSED, relatedBuyTradeId := none, realizedPnL := some 5 }

/-- Three closed BUY entries of which exactly one is profitable: the
stored win rate is 33.33 (the percentage 100/3 rounded by
`toFixed(2)`), not 100/3. -/
def exThreeClosedBuys : List Trade :=
  [exClosedProfitableBuy,
   { exClosedProfitableBuy with id := 1, realizedPnL := some (-3) },
   { exClosedProfitableBuy with id := 2, realizedPnL := some 0 }]

/-- The earlier of two OPEN BUY entries for the same market and outcome. -/
def exBuy0 : Trade :=
  { id := 0, ttype := TType.BUY, marketSlug := "mkt-b", outcome := 1
    investmentAmount := some 7, returnAmount := none, actualReturnReceived := none
    status := TStatus.OPEN, relatedBuyTradeId := none, realizedPnL := none }

/-- The more recent of two OPEN BUY entries for the same market and outcome. -/
def exBuy1 : Trade :=
  { id := 1, ttype := TType.BUY, marketSlug := "mkt-b", outcome := 1
    investmentAmount := some 9, returnAmount := none, actualReturnReceived := none
    status := TStatus.OPEN, relatedBuyTradeId := none, realizedPnL := none }

/-- A tracker holding two OPEN BUYs for the same market and outcome. -/
def exTwoOpenBuys : TrackerState :=
  { trades := [exBuy0, exBuy1], nextId := 2 }

/-- A sell for that market and outcome carrying no explicit buy link. -/
def exSellNoLink : SellData :=
  { marketSlug := "mkt-b", outcome := 1, returnAmount := some 8
    actualReturnReceived := some 8, relatedBuyTradeId := none, pnlAmount := some 1 }

/-- A buy record for the double-open counterexample. -/
def exBuyData : BuyData :=
  { marketSlug := "mkt-c", outcome := 1, investmentAmount := some 5 }

/-- The tracker after recording the same market's buy twice. -/
def doubleOpenTracker : TrackerState :=
  ([TrackerOp.buyOp exBuyData, TrackerOp.buyOp exBuyData]).foldl applyOp emptyTracker

/-- A chain environment in which every read and transaction succeeds. -/
def envAll : ChainEnv :=
  { usdcBalance := fun _ => 1000000, approvalOk := fun _ => true, gasOk := fun _ => true
    txOk := fun _ => true, erc1155Balance := fun _ => 100
    erc1155ApprovalOk := fun _ => true, sellGasOk := fun _ => true
    sellTxOk := fun _ => true }

/-- A resolved market the target holds a position in. -/
def exResolvedMarket : MarketInfo :=
  { slug := some "mkt-r", status := "RESOLVED", closed := false, title := "resolved market"
    address := some "0xmarket", winningOutcomeIndex := some 1 }

/-- The target's feed position on the resolved market. -/
def exResolvedPosition : TargetPosition :=
  { market := some exResolvedMarket, tokensBalance := some { yes := 100, no := 0 }
    costYes := some 10000000, costNo := none, marketValueYes := some 9000000
    marketValueNo := none, latestYesPrice := some (9 / 10), latestNoPrice := some (1 / 10) }

/-- The local OPEN BUY ledger entry backing the held position on the
resolved market. -/
def exOpenBuyR : Trade :=
  { id := 0, ttype := TType.BUY, marketSlug := "mkt-r", outcome := 1
    investmentAmount := some 5000000, returnAmount := none, actualReturnReceived := none
    status := TStatus.OPEN, relatedBuyTradeId := none, realizedPnL := none }

/-- A live engine state holding a replicated position on the resolved
market. -/
def exHeldEngineState : EngineState :=
  { lastSeen := [("mkt-r", { outcomeIndex := 1, tokensBalance := 100 })]
    ourPos := [("mkt-r", { outcomeIndex := 1, amount := 5000000, tradeId := some 0 })]
    isInitialSync := false
    tracker := { trades := [exOpenBuyR], nextId := 1 } }

/-- A simulator position on the resolved market. -/
def exSimPosHeld : SimPos :=
  { outcome := 1, outcomeLabel := "YES", invested := 10, tokens := 98 / 10
    marketTitle := "resolved market" }

/-- A simulator state holding that position. -/
def exSimStateHeld : SimState :=
  { balance := 50, positions := [("mkt-r", exSimPosHeld)]
    tracker := { trades := [exOpenBuyR], nextId := 1 } }

/-- An active (FUNDED) market with an on-chain address. -/
def mkActiveMarket (slug : String) : MarketInfo :=
  { slug := some slug, status := "FUNDED", closed := false, title := slug
    address := some "0xmarket", winningOutcomeIndex := none }

/-- A feed position holding YES tokens on an active market. -/
def mkYesPosition (slug : String) : TargetPosition :=
  { market := some (mkActiveMarket slug), tokensBalance := some { yes := 100, no := 0 }
    costYes := some 10000000, costNo := none, marketValueYes := some 9000000
    marketValueNo := none, latestYesPrice := some (9 / 10), latestNoPrice := some (1 / 10) }

/-- A three-market snapshot for the cold-start scenario. -/
def coldSnapshot : List TargetPosition :=
  [mkYesPosition "m1", mkYesPosition "m2", mkYesPosition "m3"]

/-- A live engine state that last saw the target on NO in market m1 and
holds the replicated NO position (the SWITCHED scenario: the snapshot
now reports YES). -/
def exSwitchEngineState : EngineState :=
  { lastSeen := [("m1", { outcomeIndex := 0, tokensBalance := 80 })]
    ourPos := [("m1", { outcomeIndex := 0, amount := 5000000, tradeId := some 0 })]
    isInitialSync := false
    tracker := { trades := [{ exOpenBuyR with marketSlug := "m1", outcome := 0 }], nextId := 1 } }

/-- A simulator state holding NO in market m1 (the SWITCHED scenario). -/
def exSwitchSimState : SimState :=
  { balance := 50
    positions := [("m1", { outcome := 0, outcomeLabel := "NO", invested := 10
                           tokens := 98 / 10, marketTitle := "m1" })]
    tracker := { trades := [{ exOpenBuyR with marketSlug := "m1", outcome := 0 }], nextId := 1 } }

/-- A simulator state whose balance cannot cover the example's clamped
investment. -/
def brokeSimState : SimState :=
  { balance := 1, positions := [], tracker := emptyTracker }

/-- A concrete buy-sell-buy call sequence for the balance invariant. -/
def exSimOps : List SimOp :=
  [SimOp.buyCall "m1" "m1" 1 "YES" 200,
   SimOp.sellCall "m1" 1 none none,
   SimOp.buyCall "m1" "m1" 0 "NO" 3]

end LimitlessBot

namespace LimitlessBot

/-! ### Association list lemmas -/

theorem del_cons {α : Type} (pk : String) (pv : α) (t : List (String × α)) (k : String) :
    del ((pk, pv) :: t) k = if pk = k then del t k else (pk, pv) :: del t k := by
  by_cases h : pk = k <;> simp [del, List.filter_cons, h]

theorem look_del_ne {α : Type} (m : List (String × α)) {k k2 : String} (h : k ≠ k2) :
    look (del m k) k2 = look m k2 := by
  induction m with
  | nil => rfl
  | cons p t ih =>
    obtain ⟨pk, pv⟩ := p
    rw [del_cons]
    by_cases hp : pk = k
    · subst hp
      simp [look, h, ih]
    · simp only [if_neg hp, look]
      by_cases h2 : pk = k2 <;> simp [h2, ih]

theorem look_put_same {α : Type} (m : List (String × α)) (k : String) (v : α) :
    look (put m k v) k = some v := by
  simp [put, look]

theorem look_put_ne {α : Type} (m : List (String × α)) {k k2 : String} (v : α) (h : k ≠ k2) :
    look (put m k v) k2 = look m k2 := by
  simp [put, look, h, look_del_ne m h]

theorem look_mem {α : Type} :
    ∀ (m : List (String × α)) (k : String) (v : α), look m k = some v → (k, v) ∈ m := by
  intro m
  induction m with
  | nil => intro k v h; simp [look] at h
  | cons p t ih =>
    intro k v h
    obtain ⟨pk, pv⟩ := p
    by_cases hp : pk = k
    · subst hp
      rw [look, if_pos rfl] at h
      injection h with h2
      subst h2
      exact List.mem_cons_self _ _
    · rw [look, if_neg hp] at h
      exact List.mem_cons_of_mem _ (ih k v h)

theorem mem_del {α : Type} {m : List (String × α)} {k : String} {x : String × α}
    (h : x ∈ del m k) : x ∈ m :=
  List.mem_of_mem_filter h

theorem mem_put {α : Type} {m : List (String × α)} {k : String} {v : α} {x : String × α}
    (h : x ∈ put m k v) : x = (k, v) ∨ x ∈ m := by
  rcases List.mem_cons.mp h with h1 | h2
  · exact Or.inl h1
  · exact Or.inr (mem_del h2)

/-! ### Generic list helper lemmas -/

theorem foldl_add_map_sum {α : Type} (f : α → ℤ) :
    ∀ (l : List α) (a : ℤ), l.foldl (fun acc t => acc + f t) a = a + (l.map f).sum := by
  intro l
  induction l with
  | nil => intro a; simp
  | cons x t ih =>
    intro a
    simp only [List.foldl_cons, List.map_cons, List.sum_cons, ih]
    ring

/-! ### C1 — trade sizing -/

/-- C1 counterexample: with multiplier 0.5, min 5, max 50 and a target
investment of 200, the simulator sizes 50 (as the claim states) but the
live `replicateOpen` sizes 5: line 419 multiplies `MIN_BET_USDC` by the
multiplier instead of the target investment, so the claimed equality
with `clamp(targetInvestment * multiplier, min, max)` fails on the live
replication path. -/
theorem C1_counterexample :
    simSizedInvestment exSimConfig 200 = 50
    ∧ specSizeClamp 200 (1 / 2) 5 50 = 50
    ∧ liveSizedInvestment exLiveConfig = 5
    ∧ liveSizedInvestment exLiveConfig ≠ specSizeClamp 200 (1 / 2) 5 50 := by
  refine ⟨?_, ?_, ?_, ?_⟩ <;>
    norm_num [simSizedInvestment, specSizeClamp, liveSizedInvestment, exSimConfig,
      exLiveConfig, min_def, max_def]

/-- C1 amended: the simulation path sizes every buy as
`clamp(targetInvestment * multiplier, min, max)`, but the live
`replicateOpen` ignores the target's investment entirely and computes
`clamp(min * multiplier, min, max)`; on the spec's example (target 200,
multiplier 0.5, min 5, max 50) the live path therefore invests 5, not 50. -/
theorem C1_sizing_amended :
    (∀ (cfg : SimConfig) (t : ℚ),
        simSizedInvestment cfg t = specSizeClamp t cfg.multiplier cfg.minBet cfg.maxBet)
    ∧ (∀ cfg : LiveConfig,
        liveSizedInvestment cfg = specSizeClamp cfg.minBet cfg.multiplier cfg.minBet cfg.maxBet)
    ∧ liveSizedInvestment exLiveConfig = 5 := by
  refine ⟨fun _ _ => rfl, fun _ => rfl, ?_⟩
  norm_num [liveSizedInvestment, exLiveConfig, min_def, max_def]

/-! ### C5 — no InvalidConfig check for min > max -/

/-- C5 counterexample: a configuration with min 10 > max 5 and all
required startup values present passes the startup validation (which
checks only RPC_URL, TARGET_WALLET and PRIVATE_KEY) and the sizer
silently produces 10 — there is no InvalidConfig failure anywhere. -/
theorem C5_counterexample :
    badMinMaxConfig.maxBet < badMinMaxConfig.minBet
    ∧ startupFatalError badMinMaxConfig = none
    ∧ liveSizedInvestment badMinMaxConfig = 10
    ∧ simSizedInvestment badMinMaxSimConfig 200 = 10 := by
  refine ⟨?_, ?_, ?_, ?_⟩ <;>
    norm_num [startupFatalError, liveSizedInvestment, simSizedInvestment,
      badMinMaxConfig, badMinMaxSimConfig, min_def, max_def]

/-- C5 amended: the startup validation is entirely independent of the
min/max bet configuration, and whenever `min > max` both sizing paths
silently return `min` (the outer `Math.max` dominates) instead of
failing with an InvalidConfig error. -/
theorem C5_no_minmax_validation :
    (∀ (c : LiveConfig) (a b a2 b2 : ℚ),
        startupFatalError { c with minBet := a, maxBet := b }
          = startupFatalError { c with minBet := a2, maxBet := b2 })
    ∧ (∀ c : LiveConfig, c.maxBet < c.minBet → liveSizedInvestment c = c.minBet)
    ∧ (∀ (cfg : SimConfig) (t : ℚ), cfg.maxBet < cfg.minBet →
        simSizedInvestment cfg t = cfg.minBet) := by
  refine ⟨fun _ _ _ _ _ => rfl, ?_, ?_⟩
  · intro c h
    exact max_eq_left (le_of_lt (lt_of_le_of_lt (min_le_left _ _) h))
  · intro cfg t h
    exact max_eq_left (le_of_lt (lt_of_le_of_lt (min_le_left _ _) h))

/-- C5 witness: the amended statement applied to the concrete min 10 /
max 5 configurations. -/
theorem C5_witness :
    liveSizedInvestment badMinMaxConfig = badMinMaxConfig.minBet
    ∧ simSizedInvestment badMinMaxSimConfig 200 = badMinMaxSimConfig.minBet :=
  ⟨C5_no_minmax_validation.2.1 badMinMaxConfig (by norm_num [badMinMaxConfig]),
   C5_no_minmax_validation.2.2 badMinMaxSimConfig 200 (by norm_num [badMinMaxSimConfig])⟩

/-! ### C7 — statistics use exact integer sums and PnL is their difference -/

/-- C7: for every ledger entry sequence, the recomputed statistics
satisfy `totalPnL = totalReturned - totalInvested`, where
`totalInvested` is the exact integer sum of the BUY entries' investment
amounts and `totalReturned` is the exact integer sum of the SELL
entries' return amounts (actual return preferred over estimated); all
three are integers, so no floating-point arithmetic is involved. -/
theorem C7_total_pnl_exact (ts : List Trade) :
    (updateStats ts).totalPnL = (updateStats ts).totalReturned - (updateStats ts).totalInvested
    ∧ (updateStats ts).totalInvested =
        ((ts.filter (fun t => t.ttype.isBuy)).map buyInvestedValue).sum
    ∧ (updateStats ts).totalReturned =
        ((ts.filter (fun t => t.ttype.isSell)).map sellReturnValue).sum := by
  refine ⟨rfl, ?_, ?_⟩ <;> simp [updateStats, foldl_add_map_sum]

/-! ### C9 — win rate -/

theorem updateStats_closedPositions (ts : List Trade) :
    (updateStats ts).closedPositions =
      ((ts.filter (fun t => t.ttype.isBuy)).filter (fun t => !t.status.isOpenStatus)).length :=
  rfl

theorem updateStats_winRate (ts : List Trade) :
    (updateStats ts).winRate =
      toFixed2
        (if 0 < ((ts.filter (fun t => t.ttype.isBuy)).filter
                  (fun t => !t.status.isOpenStatus)).length then
          ((profitableClosedCount ts : ℚ)
              / ((((ts.filter (fun t => t.ttype.isBuy)).filter
                    (fun t => !t.status.isOpenStatus)).length : ℚ))) * 100
        else 0) :=
  rfl

/-- C9 counterexample: with a single closed profitable BUY, the stored
win rate is 100 while profitable-closed divided by total-closed is 1 —
the code multiplies the ratio by 100 (a percentage), so "win rate equals
profitable-closed divided by total-closed" fails as stated. -/
theorem C9_counterexample :
    (updateStats [exClosedProfitableBuy]).winRate = 100
    ∧ (profitableClosedCount [exClosedProfitableBuy] : ℚ)
        / ((updateStats [exClosedProfitableBuy]).closedPositions : ℚ) = 1
    ∧ (updateStats [exClosedProfitableBuy]).winRate ≠
        (profitableClosedCount [exClosedProfitableBuy] : ℚ)
          / ((updateStats [exClosedProfitableBuy]).closedPositions : ℚ) := by
  refine ⟨?_, ?_, ?_⟩ <;>
    norm_num [updateStats_winRate, updateStats_closedPositions, profitableClosedCount,
      exClosedProfitableBuy, isProfitableClosed, TType.isBuy, TStatus.isOpenStatus,
      List.filter, toFixed2, round_eq]

/-- C9 amended: the stored win rate is the percentage
`(profitable-closed / total-closed) * 100` rounded to two decimal
places by `toFixed(2)` — one profitable of three closed stores 33.33,
not 100/3 — and 0 (not an error, not NaN) when no closed positions
exist; a closed BUY counts as profitable exactly when its realized PnL
parses to a positive integer. -/
theorem C9_winrate_amended :
    (∀ ts : List Trade,
        (updateStats ts).winRate =
          toFixed2
            (if (updateStats ts).closedPositions = 0 then 0
             else ((profitableClosedCount ts : ℚ)
                    / ((updateStats ts).closedPositions : ℚ)) * 100))
    ∧ (updateStats exThreeClosedBuys).winRate = 3333 / 100
    ∧ (∀ t : Trade, isProfitableClosed t = true ↔ ∃ v, t.realizedPnL = some v ∧ 0 < v) := by
  refine ⟨?_, ?_, ?_⟩
  · intro ts
    rw [updateStats_winRate, updateStats_closedPositions]
    by_cases h :
        (((ts.filter fun t => t.ttype.isBuy).filter fun t => !t.status.isOpenStatus)).length = 0
    · rw [if_neg (by omega), if_pos h]
    · rw [if_pos (Nat.pos_of_ne_zero h), if_neg h]
  · norm_num [updateStats_winRate, profitableClosedCount, exThreeClosedBuys,
      exClosedProfitableBuy, isProfitableClosed, TType.isBuy, TStatus.isOpenStatus,
      List.filter, toFixed2, round_eq]
  · intro t
    cases h : t.realizedPnL with
    | none => simp [isProfitableClosed, h]
    | some v => simp [isProfitableClosed, h]

/-! ### C6 — recordSell auto-link -/

theorem find_eq_some_split {α : Type} (p : α → Bool) :
    ∀ (l : List α) (b : α), l.find? p = some b →
      ∃ pre post, l = pre ++ b :: post ∧ (∀ x ∈ pre, p x = false) ∧ p b = true := by
  intro l
  induction l with
  | nil => intro b h; simp [List.find?] at h
  | cons a t ih =>
    intro b h
    cases hp : p a with
    | true =>
      rw [List.find?_cons_of_pos _ hp] at h
      injection h with h2
      subst h2
      exact ⟨[], t, rfl, by simp, hp⟩
    | false =>
      rw [List.find?_cons_of_neg _ (by simp [hp])] at h
      obtain ⟨pre, post, heq, hpre, hb⟩ := ih b h
      refine ⟨a :: pre, post, by rw [heq, List.cons_append], ?_, hb⟩
      intro x hx
      rcases List.mem_cons.mp hx with rfl | hx2
      · exact hp
      · exact hpre x hx2

/-- Computation of `recordSell` in the auto-link case: the entry list
becomes the old entries with the found buy closed, followed by the new
SELL entry carrying the found buy's id. -/
theorem recordSell_autolink (s : TrackerState) (d : SellData) (b : Trade)
    (hnone : d.relatedBuyTradeId = none)
    (hfind : findOpenBuy s.trades d.marketSlug d.outcome = some b) :
    (recordSell s d).1.trades
      = s.trades.map (closeOne b.id { realizedPnL := d.pnlAmount })
        ++ [{ id := s.nextId, ttype := TType.SELL, marketSlug := d.marketSlug
              outcome := d.outcome, investmentAmount := none, returnAmount := d.returnAmount
              actualReturnReceived := d.actualReturnReceived, status := TStatus.CLOSED
              relatedBuyTradeId := some b.id, realizedPnL := none }] := by
  simp [recordSell, hnone, hfind]

/-- C6 amended: when `recordSell` carries no explicit link and an OPEN
BUY exists for the same market and outcome, the SELL is linked to the
EARLIEST (first-recorded) such OPEN BUY — `Array.find` returns the first
match in insertion order, not the most recent — and every entry bearing
that buy's id is transitioned to CLOSED. -/
theorem C6_autolink_earliest (s : TrackerState) (d : SellData) (b : Trade)
    (hnone : d.relatedBuyTradeId = none)
    (hfind : findOpenBuy s.trades d.marketSlug d.outcome = some b) :
    (∃ pre post, s.trades = pre ++ b :: post
        ∧ (∀ x ∈ pre, isOpenBuyFor d.marketSlug d.outcome x = false)
        ∧ isOpenBuyFor d.marketSlug d.outcome b = true)
    ∧ ((recordSell s d).1.trades.getLast?).map (fun t => t.relatedBuyTradeId)
        = some (some b.id)
    ∧ ∀ t ∈ (recordSell s d).1.trades, t.id = b.id → t.status = TStatus.CLOSED := by
  refine ⟨find_eq_some_split _ s.trades b hfind, ?_, ?_⟩
  · rw [recordSell_autolink s d b hnone hfind]
    rw [List.getLast?_concat]
    rfl
  · intro t ht hid
    rw [recordSell_autolink s d b hnone hfind] at ht
    rcases List.mem_append.mp ht with hin | hsell
    · obtain ⟨u, hu, rfl⟩ := List.mem_map.mp hin
      by_cases h : u.id = b.id
      · simp [closeOne, h]
      · rw [closeOne, if_neg h] at hid ⊢
        exact absurd hid h
    · rw [List.mem_singleton.mp hsell]

/-- C6 witness: the amended statement applied to a tracker holding two
OPEN BUYs (ids 0 and 1) for the same market and outcome. -/
theorem C6_witness :
    (∃ pre post, exTwoOpenBuys.trades = pre ++ exBuy0 :: post
        ∧ (∀ x ∈ pre, isOpenBuyFor exSellNoLink.marketSlug exSellNoLink.outcome x = false)
        ∧ isOpenBuyFor exSellNoLink.marketSlug exSellNoLink.outcome exBuy0 = true)
    ∧ ((recordSell exTwoOpenBuys exSellNoLink).1.trades.getLast?).map
        (fun t => t.relatedBuyTradeId) = some (some exBuy0.id)
    ∧ ∀ t ∈ (recordSell exTwoOpenBuys exSellNoLink).1.trades,
        t.id = exBuy0.id → t.status = TStatus.CLOSED :=
  C6_autolink_earliest exTwoOpenBuys exSellNoLink exBuy0 rfl (by decide)

/-- C6 counterexample: with OPEN BUYs of ids 0 (older) and 1 (newer) for
the same market and outcome, the unlinked SELL is linked to id 0 and the
most recent OPEN BUY (id 1) stays OPEN — the claim that the most recent
open buy is linked and closed fails. -/
theorem C6_counterexample :
    ((recordSell exTwoOpenBuys exSellNoLink).1.trades.getLast?).map
        (fun t => t.relatedBuyTradeId) = some (some 0)
    ∧ (∃ t ∈ (recordSell exTwoOpenBuys exSellNoLink).1.trades,
        t.id = 1 ∧ t.status = TStatus.OPEN)
    ∧ exBuy1.id = 1 ∧ exBuy1.id ≠ exBuy0.id := by
  refine ⟨by decide, ⟨?_, ?_⟩, by decide, by decide⟩
  · exact (recordSell exTwoOpenBuys exSellNoLink).1.trades.get ⟨1, by decide⟩
  · decide

/-! ### C8 — at most one open BUY per market -/

theorem isOpenBuy_closeOne_self (tid : ℕ) (c : CloseData) (t : Trade) (h : t.id = tid) :
    Trade.isOpenBuy (closeOne tid c t) = false := by
  simp [closeOne, h, Trade.isOpenBuy, TStatus.isOpenStatus]

theorem closeOne_ne (tid : ℕ) (c : CloseData) (t : Trade) (h : ¬t.id = tid) :
    closeOne tid c t = t := by
  simp [closeOne, h]

/-- Closing an entry can only shrink the set of open buys. -/
theorem filter_closeOne_sublist (tid : ℕ) (c : CloseData) :
    ∀ ts : List Trade,
      List.Sublist ((ts.map (closeOne tid c)).filter Trade.isOpenBuy)
        (ts.filter Trade.isOpenBuy) := by
  intro ts
  induction ts with
  | nil => simp
  | cons t rest ih =>
    by_cases h : t.id = tid
    · rw [List.map_cons,
        List.filter_cons_of_neg (by simp [isOpenBuy_closeOne_self tid c t h])]
      cases hob : Trade.isOpenBuy t
      · rw [List.filter_cons_of_neg (by simp [hob])]
        exact ih
      · rw [List.filter_cons_of_pos hob]
        exact List.Sublist.cons _ ih
    · rw [List.map_cons, closeOne_ne tid c t h]
      cases hob : Trade.isOpenBuy t
      · rw [List.filter_cons_of_neg (by simp [hob]),
          List.filter_cons_of_neg (by simp [hob])]
        exact ih
      · rw [List.filter_cons_of_pos hob, List.filter_cons_of_pos hob]
        exact List.Sublist.cons₂ _ ih

/-- Recording a SELL entry leaves the set of open buys untouched, aside
from possibly closing one of them. -/
theorem recordSell_explicit (s : TrackerState) (d : SellData) (i : ℕ)
    (h : d.relatedBuyTradeId = some i) :
    (recordSell s d).1.trades
      = s.trades.map (closeOne i { realizedPnL := d.pnlAmount })
        ++ [{ id := s.nextId, ttype := TType.SELL, marketSlug := d.marketSlug
              outcome := d.outcome, investmentAmount := none, returnAmount := d.returnAmount
              actualReturnReceived := d.actualReturnReceived, status := TStatus.CLOSED
              relatedBuyTradeId := some i, realizedPnL := none }] := by
  simp [recordSell, h]

theorem recordSell_nolink (s : TrackerState) (d : SellData)
    (h1 : d.relatedBuyTradeId = none)
    (h2 : findOpenBuy s.trades d.marketSlug d.outcome = none) :
    (recordSell s d).1.trades
      = s.trades
        ++ [{ id := s.nextId, ttype := TType.SELL, marketSlug := d.marketSlug
              outcome := d.outcome, investmentAmount := none, returnAmount := d.returnAmount
              actualReturnReceived := d.actualReturnReceived, status := TStatus.CLOSED
              relatedBuyTradeId := none, realizedPnL := none }] := by
  simp [recordSell, h1, h2]

/-- Appending a SELL entry does not change the open buys. -/
theorem openBuys_append_sell (l1 : List Trade) (sell : Trade)
    (h : sell.ttype = TType.SELL) :
    (l1 ++ [sell]).filter Trade.isOpenBuy = l1.filter Trade.isOpenBuy := by
  rw [List.filter_append,
    List.filter_cons_of_neg (by simp [Trade.isOpenBuy, h, TType.isBuy])]
  simp

/-- `recordSell` can only shrink the set of open buys. -/
theorem recordSell_openBuys_sublist (s : TrackerState) (d : SellData) :
    List.Sublist (((recordSell s d).1.trades).filter Trade.isOpenBuy)
      (s.trades.filter Trade.isOpenBuy) := by
  cases hl : d.relatedBuyTradeId with
  | some i =>
    rw [recordSell_explicit s d i hl, openBuys_append_sell _ _ rfl]
    exact filter_closeOne_sublist i _ s.trades
  | none =>
    cases hf : findOpenBuy s.trades d.marketSlug d.outcome with
    | none =>
      rw [recordSell_nolink s d hl hf, openBuys_append_sell _ _ rfl]
    | some b =>
      rw [recordSell_autolink s d b hl hf, openBuys_append_sell _ _ rfl]
      exact filter_closeOne_sublist b.id _ s.trades

/-- Each guarded ledger operation preserves per-market uniqueness of the
open buys. -/
theorem applyOp_preserves_unique (s : TrackerState) (op : TrackerOp)
    (hu : UniqueOpenMarkets s)
    (hg : match op with
          | .buyOp d => NoOpenBuyFor s d.marketSlug
          | _ => True) :
    UniqueOpenMarkets (applyOp s op) := by
  cases op with
  | buyOp d =>
    unfold UniqueOpenMarkets getOpenPositions at hu ⊢
    show (((recordBuy s d).1.trades).filter Trade.isOpenBuy).Pairwise _
    have : (recordBuy s d).1.trades = s.trades ++
        [{ id := s.nextId, ttype := TType.BUY, marketSlug := d.marketSlug
           outcome := d.outcome, investmentAmount := d.investmentAmount
           returnAmount := none, actualReturnReceived := none
           status := TStatus.OPEN, relatedBuyTradeId := none, realizedPnL := none }] := rfl
    rw [this, List.filter_append, List.pairwise_append]
    refine ⟨hu, ?_, ?_⟩
    · simp [Trade.isOpenBuy, TType.isBuy, TStatus.isOpenStatus]
    · intro a ha b hb
      have hbmem := List.mem_filter.mp hb
      simp only [List.mem_singleton] at hbmem
      obtain ⟨rfl, _⟩ := hbmem
      have hamem := List.mem_filter.mp ha
      intro hslug
      exact hg a hamem.1 ⟨hamem.2, hslug⟩
  | sellOp d =>
    unfold UniqueOpenMarkets getOpenPositions at hu ⊢
    exact hu.sublist (recordSell_openBuys_sublist s d)
  | closeOp tid c =>
    unfold UniqueOpenMarkets getOpenPositions at hu ⊢
    exact hu.sublist (filter_closeOne_sublist tid c s.trades)

/-- C8 amended: `recordBuy` itself performs no per-market uniqueness
check (two calls for the same market yield two OPEN BUYs); the spec's
invariant holds for every operation sequence in which each buy is
recorded only while the tracker holds no OPEN BUY for that market —
then `getOpenPositions()` never returns two entries for one market. -/
theorem C8_unique_open_amended (s : TrackerState) (ops : List TrackerOp)
    (hu : UniqueOpenMarkets s) (hg : Guarded s ops) :
    UniqueOpenMarkets (ops.foldl applyOp s) := by
  induction ops generalizing s with
  | nil => exact hu
  | cons op rest ih =>
    obtain ⟨h1, h2⟩ := hg
    exact ih (applyOp s op) (applyOp_preserves_unique s op hu h1) h2

/-- C8 witness: a guarded buy-sell-buy sequence on one market keeps the
open positions unique. -/
theorem C8_witness :
    UniqueOpenMarkets
      (([TrackerOp.buyOp exBuyData,
         TrackerOp.sellOp { marketSlug := "mkt-c", outcome := 1, returnAmount := some 5
                            actualReturnReceived := some 5, relatedBuyTradeId := none
                            pnlAmount := some 0 },
         TrackerOp.buyOp exBuyData]).foldl applyOp emptyTracker) :=
  C8_unique_open_amended emptyTracker _
    (by decide)
    ⟨by decide, trivial, by decide, trivial⟩

/-- C8 counterexample: recording the same market's buy twice leaves two
OPEN BUY entries for that market in `getOpenPositions()` — the claimed
invariant fails for this operation sequence. -/
theorem C8_counterexample :
    ((getOpenPositions doubleOpenTracker).map (fun t => t.marketSlug))
        = ["mkt-c", "mkt-c"]
    ∧ ¬ UniqueOpenMarkets doubleOpenTracker := by
  constructor
  · decide
  · decide

/-! ### Ledger footprint lemmas shared by the ordering claims -/

theorem look_del_same {α : Type} (m : List (String × α)) (k : String) :
    look (del m k) k = none := by
  induction m with
  | nil => rfl
  | cons p t ih =>
    obtain ⟨pk, pv⟩ := p
    rw [del_cons]
    by_cases hp : pk = k
    · simpa [hp] using ih
    · simpa [look, hp] using ih

theorem tradeTag_closeOne (tid : ℕ) (c : CloseData) (t : Trade) :
    tradeTag (closeOne tid c t) = tradeTag t := by
  by_cases h : t.id = tid <;> simp [closeOne, h, tradeTag]

theorem map_tradeTag_closeOne (tid : ℕ) (c : CloseData) (ts : List Trade) :
    (ts.map (closeOne tid c)).map tradeTag = ts.map tradeTag := by
  rw [List.map_map]
  exact List.map_congr_left (fun t _ => tradeTag_closeOne tid c t)

/-- `recordSell` appends exactly one SELL footprint for its market. -/
theorem recordSell_tags (s : TrackerState) (d : SellData) :
    (recordSell s d).1.trades.map tradeTag
      = s.trades.map tradeTag ++ [(TType.SELL, d.marketSlug)] := by
  cases hl : d.relatedBuyTradeId with
  | some i =>
    rw [recordSell_explicit s d i hl, List.map_append, map_tradeTag_closeOne]
    rfl
  | none =>
    cases hf : findOpenBuy s.trades d.marketSlug d.outcome with
    | none => rw [recordSell_nolink s d hl hf, List.map_append]; rfl
    | some b =>
      rw [recordSell_autolink s d b hl hf, List.map_append, map_tradeTag_closeOne]
      rfl

/-- `recordBuy` appends exactly one BUY footprint for its market. -/
theorem recordBuy_tags (s : TrackerState) (d : BuyData) :
    (recordBuy s d).1.trades.map tradeTag
      = s.trades.map tradeTag ++ [(TType.BUY, d.marketSlug)] := by
  simp [recordBuy, tradeTag]

/-! ### C2 — resolved markets -/

/-- The live engine skips every resolved or closed market outright
(part_000 lines 317-320). -/
theorem processPosition_resolved (cfg : LiveConfig) (env : ChainEnv) (s : EngineState)
    (d : TargetPosition) (mkt : MarketInfo)
    (hm : d.market = some mkt)
    (hres : mkt.status = "RESOLVED" ∨ mkt.closed = true) :
    processPosition cfg env s d = s := by
  unfold processPosition
  rw [hm]
  dsimp only
  cases hs : mkt.slug with
  | none => rfl
  | some slug =>
    dsimp only
    rw [if_pos hres]

/-- A matching simulator sell always records one SELL footprint and
drops the position. -/
theorem simulateSell_match (cfg : SimConfig) (s : SimState) (slug : String) (o : ℕ)
    (mv : Option ℚ) (w : Option ℕ) (p : SimPos)
    (hp : look s.positions slug = some p) (ho : p.outcome = o) :
    (simulateSell cfg s slug o mv w).1.tracker.trades.map tradeTag
        = s.tracker.trades.map tradeTag ++ [(TType.SELL, slug)]
    ∧ look (simulateSell cfg s slug o mv w).1.positions slug = none := by
  unfold simulateSell
  rw [hp]
  simp only [if_neg (by simp [ho] : ¬p.outcome ≠ o)]
  exact ⟨recordSell_tags _ _, look_del_same _ _⟩

/-- Reduction of the simulator's per-position step on a resolved market
with a held position: it sells by resolution. -/
theorem simStep_resolved (cfg : SimConfig) (s : SimState) (d : TargetPosition)
    (mkt : MarketInfo) (slug : String) (tb : TokensBalance) (o : ℕ) (b : ℤ) (p : SimPos)
    (hm : d.market = some mkt) (hs : mkt.slug = some slug)
    (htb : d.tokensBalance = some tb)
    (hdet : determineTargetOutcome tb.yes tb.no = some (o, b))
    (hres : mkt.status = "RESOLVED")
    (hp : look s.positions slug = some p) :
    simStep cfg s d = (simulateSell cfg s slug p.outcome none mkt.winningOutcomeIndex).1 := by
  unfold simStep
  rw [hm]
  dsimp only
  rw [hs]
  dsimp only
  rw [htb]
  dsimp only
  rw [hdet]
  dsimp only
  rw [if_pos hres, hp]

/-- C2 amended: only the simulation path sells on resolution.  The live
`processPosition` skips every resolved market and leaves the engine
state — local position, last-seen map and ledger — completely untouched,
even when every chain interaction would succeed; the simulator's
`runSimulation`, on a resolved market with a held position, records a
SELL ledger entry (carrying the market's winning-outcome context) and
removes the position. -/
theorem C2_resolved_amended :
    (∀ (cfg : LiveConfig) (env : ChainEnv) (s : EngineState) (d : TargetPosition)
        (mkt : MarketInfo), d.market = some mkt →
        mkt.status = "RESOLVED" ∨ mkt.closed = true →
        processPosition cfg env s d = s)
    ∧ (∀ (cfg : SimConfig) (s : SimState) (d : TargetPosition) (mkt : MarketInfo)
        (slug : String) (tb : TokensBalance) (o : ℕ) (b : ℤ) (p : SimPos),
        d.market = some mkt → mkt.slug = some slug → d.tokensBalance = some tb →
        determineTargetOutcome tb.yes tb.no = some (o, b) →
        mkt.status = "RESOLVED" → look s.positions slug = some p →
        (simStep cfg s d).tracker.trades.map tradeTag
            = s.tracker.trades.map tradeTag ++ [(TType.SELL, slug)]
          ∧ look (simStep cfg s d).positions slug = none) := by
  constructor
  · intro cfg env s d mkt hm hres
    exact processPosition_resolved cfg env s d mkt hm hres
  · intro cfg s d mkt slug tb o b p hm hs htb hdet hres hp
    rw [simStep_resolved cfg s d mkt slug tb o b p hm hs htb hdet hres hp]
    exact simulateSell_match cfg s slug p.outcome none mkt.winningOutcomeIndex p hp rfl

/-- C2 witness: the amended statement applied to a concrete resolved
market held by both the live state and the simulator state. -/
theorem C2_witness :
    processPosition exLiveConfig envAll exHeldEngineState exResolvedPosition
        = exHeldEngineState
    ∧ ((simStep exSimConfig exSimStateHeld exResolvedPosition).tracker.trades.map tradeTag
          = exSimStateHeld.tracker.trades.map tradeTag ++ [(TType.SELL, "mkt-r")]
        ∧ look (simStep exSimConfig exSimStateHeld exResolvedPosition).positions "mkt-r"
          = none) :=
  ⟨C2_resolved_amended.1 exLiveConfig envAll exHeldEngineState exResolvedPosition
      exResolvedMarket rfl (Or.inl rfl),
   C2_resolved_amended.2 exSimConfig exSimStateHeld exResolvedPosition exResolvedMarket
      "mkt-r" { yes := 100, no := 0 } 1 100 exSimPosHeld rfl rfl rfl (by decide) rfl rfl⟩

/-- C2 counterexample: a position snapshot on a resolved market, with the
engine holding the replicated position and every chain call able to
succeed, leaves the live engine state — including its ledger — entirely
unchanged: no CLOSED event is emitted and no close leg is driven, so the
claim fails on the live path. -/
theorem C2_counterexample :
    processPosition exLiveConfig envAll exHeldEngineState exResolvedPosition
        = exHeldEngineState
    ∧ (processPosition exLiveConfig envAll exHeldEngineState
        exResolvedPosition).tracker.trades = [exOpenBuyR]
    ∧ look (processPosition exLiveConfig envAll exHeldEngineState
        exResolvedPosition).ourPos "mkt-r"
        = some { outcomeIndex := 1, amount := 5000000, tradeId := some 0 } := by
  refine ⟨?_, ?_, ?_⟩ <;> rfl

/-! ### C3 — cold-start suppression -/

/-- `processPosition` on a replicable position reduces to the diff tail. -/
theorem pp_of_view (cfg : LiveConfig) (env : ChainEnv) (s : EngineState)
    (d : TargetPosition) (mkt : MarketInfo) (slug : String) (o : ℕ) (b : ℤ)
    (hv : replicableView d = some (mkt, slug, o, b)) :
    processPosition cfg env s d = ppReplicableStep cfg env s mkt slug o b := by
  cases hm : d.market with
  | none => simp [replicableView, hm] at hv
  | some mkt0 =>
    cases hs : mkt0.slug with
    | none => simp [replicableView, hm, hs] at hv
    | some slug0 =>
      by_cases hres : mkt0.status = "RESOLVED" ∨ mkt0.closed = true
      · simp [replicableView, hm, hs, hres] at hv
      · cases htb : d.tokensBalance with
        | none => simp [replicableView, hm, hs, hres, htb] at hv
        | some tb =>
          cases hdet : determineTargetOutcome tb.yes tb.no with
          | none => simp [replicableView, hm, hs, hres, htb, hdet] at hv
          | some ov =>
            obtain ⟨o2, b2⟩ := ov
            have hv2 : mkt0 = mkt ∧ slug0 = slug ∧ o2 = o ∧ b2 = b := by
              simpa [replicableView, hm, hs, hres, htb, hdet] using hv
            obtain ⟨rfl, rfl, rfl, rfl⟩ := hv2
            unfold processPosition
            rw [hm]
            dsimp only
            rw [hs]
            dsimp only
            rw [if_neg hres, htb]
            dsimp only
            rw [hdet]
            rfl

/-- Cold step: an unseen replicable position during the initial sync is
recorded into the last-seen map and nothing else changes. -/
theorem pp_cold (cfg : LiveConfig) (env : ChainEnv) (s : EngineState)
    (d : TargetPosition) (mkt : MarketInfo) (slug : String) (o : ℕ) (b : ℤ)
    (hv : replicableView d = some (mkt, slug, o, b))
    (hlook : look s.lastSeen slug = none)
    (hsync : s.isInitialSync = true) :
    processPosition cfg env s d
      = { s with lastSeen := put s.lastSeen slug ⟨o, b⟩ } := by
  rw [pp_of_view cfg env s d mkt slug o b hv]
  unfold ppReplicableStep
  rw [hlook]
  dsimp only
  rw [if_pos hsync]

/-- Warm step: a replicable position whose outcome matches the last-seen
outcome only refreshes the last-seen entry. -/
theorem pp_same (cfg : LiveConfig) (env : ChainEnv) (s : EngineState)
    (d : TargetPosition) (mkt : MarketInfo) (slug : String) (o : ℕ) (b : ℤ)
    (ls : LastSeen)
    (hv : replicableView d = some (mkt, slug, o, b))
    (hlook : look s.lastSeen slug = some ls)
    (ho : ls.outcomeIndex = o) :
    processPosition cfg env s d
      = { s with lastSeen := put s.lastSeen slug ⟨o, b⟩ } := by
  rw [pp_of_view cfg env s d mkt slug o b hv]
  unfold ppReplicableStep
  rw [hlook]
  dsimp only
  rw [if_neg (by simp [ho])]

theorem slugsOf_cons_of_view (d : TargetPosition) (ps : List TargetPosition)
    (mkt : MarketInfo) (slug : String) (o : ℕ) (b : ℤ)
    (hv : replicableView d = some (mkt, slug, o, b)) :
    slugsOf (d :: ps) = slug :: slugsOf ps := by
  simp [slugsOf, List.filterMap_cons, hv]

theorem mem_slugsOf (d : TargetPosition) (ps : List TargetPosition)
    (mkt : MarketInfo) (slug : String) (o : ℕ) (b : ℤ)
    (hd : d ∈ ps) (hv : replicableView d = some (mkt, slug, o, b)) :
    slug ∈ slugsOf ps := by
  apply List.mem_filterMap.mpr
  exact ⟨d, hd, by rw [hv]; rfl⟩

/-- Cold fold: during the initial sync, a pass over unseen replicable
positions with pairwise-distinct slugs records every position and
changes nothing else; the last-seen entry of each position carries its
determined outcome and balance. -/
theorem foldl_cold (cfg : LiveConfig) (env : ChainEnv) :
    ∀ (ps : List TargetPosition) (s : EngineState),
      s.isInitialSync = true →
      AllReplicable ps →
      (slugsOf ps).Nodup →
      AllUnseen s ps →
      (ps.foldl (processPosition cfg env) s).tracker = s.tracker
      ∧ (ps.foldl (processPosition cfg env) s).ourPos = s.ourPos
      ∧ (ps.foldl (processPosition cfg env) s).isInitialSync = true
      ∧ (∀ d ∈ ps, ∀ mkt slug o b, replicableView d = some (mkt, slug, o, b) →
          look (ps.foldl (processPosition cfg env) s).lastSeen slug = some ⟨o, b⟩)
      ∧ (∀ k : String,
          (∀ d ∈ ps, ∀ mkt slug o b, replicableView d = some (mkt, slug, o, b) → slug ≠ k) →
          look (ps.foldl (processPosition cfg env) s).lastSeen k = look s.lastSeen k) := by
  intro ps
  induction ps with
  | nil =>
    intro s hsync _ _ _
    exact ⟨rfl, rfl, hsync, by simp, fun k _ => rfl⟩
  | cons d rest ih =>
    intro s hsync hrep hnd hun
    obtain ⟨⟨mkt, slug, o, b⟩, hv⟩ :=
      Option.isSome_iff_exists.mp (hrep d (List.mem_cons_self d rest))
    have hlook : look s.lastSeen slug = none :=
      hun d (List.mem_cons_self d rest) mkt slug o b hv
    have hstep := pp_cold cfg env s d mkt slug o b hv hlook hsync
    have hnd2 := by rw [slugsOf_cons_of_view d rest mkt slug o b hv] at hnd; exact hnd
    have hnotmem : slug ∉ slugsOf rest := (List.nodup_cons.mp hnd2).1
    have hndrest : (slugsOf rest).Nodup := (List.nodup_cons.mp hnd2).2
    have hslugne : ∀ d2 ∈ rest, ∀ mkt2 slug2 o2 b2,
        replicableView d2 = some (mkt2, slug2, o2, b2) → slug2 ≠ slug := by
      intro d2 hd2 mkt2 slug2 o2 b2 hv2 heq
      exact hnotmem (heq ▸ mem_slugsOf d2 rest mkt2 slug2 o2 b2 hd2 hv2)
    set s1 : EngineState := { s with lastSeen := put s.lastSeen slug ⟨o, b⟩ } with hs1
    have hfold : (d :: rest).foldl (processPosition cfg env) s
        = rest.foldl (processPosition cfg env) s1 := by
      rw [List.foldl_cons, hstep]
    have hun1 : AllUnseen s1 rest := by
      intro d2 hd2 mkt2 slug2 o2 b2 hv2
      have hne : slug ≠ slug2 :=
        fun heq => hslugne d2 hd2 mkt2 slug2 o2 b2 hv2 heq.symm
      calc look s1.lastSeen slug2
          = look s.lastSeen slug2 := look_put_ne s.lastSeen _ hne
        _ = none := hun d2 (List.mem_cons_of_mem d hd2) mkt2 slug2 o2 b2 hv2
    have hreprest : AllReplicable rest :=
      fun d2 hd2 => hrep d2 (List.mem_cons_of_mem d hd2)
    obtain ⟨htr, hop, hsy, hrec, hpres⟩ := ih s1 hsync hreprest hndrest hun1
    rw [hfold]
    refine ⟨htr, hop, hsy, ?_, ?_⟩
    · intro d2 hd2 mkt2 slug2 o2 b2 hv2
      rcases List.mem_cons.mp hd2 with rfl | hd2r
      · have heq : mkt = mkt2 ∧ slug = slug2 ∧ o = o2 ∧ b = b2 := by
          simpa using hv.symm.trans hv2
        obtain ⟨rfl, rfl, rfl, rfl⟩ := heq
        rw [hpres slug (by
          intro d3 hd3 mkt3 slug3 o3 b3 hv3
          exact hslugne d3 hd3 mkt3 slug3 o3 b3 hv3)]
        exact look_put_same s.lastSeen slug ⟨o, b⟩
      · exact hrec d2 hd2r mkt2 slug2 o2 b2 hv2
    · intro k hk
      have hks : slug ≠ k := hk d (List.mem_cons_self d rest) mkt slug o b hv
      rw [hpres k (fun d2 hd2 => hk d2 (List.mem_cons_of_mem d hd2))]
      exact look_put_ne s.lastSeen _ hks

/-- Warm fold: a pass over replicable positions whose outcomes all match
the last-seen outcomes only refreshes the last-seen map: the tracker,
the local positions and the sync flag are untouched. -/
theorem foldl_warm (cfg : LiveConfig) (env : ChainEnv) :
    ∀ (ps : List TargetPosition) (s : EngineState),
      AllReplicable ps →
      (slugsOf ps).Nodup →
      AllSeenSame s ps →
      (ps.foldl (processPosition cfg env) s).tracker = s.tracker
      ∧ (ps.foldl (processPosition cfg env) s).ourPos = s.ourPos
      ∧ (ps.foldl (processPosition cfg env) s).isInitialSync = s.isInitialSync := by
  intro ps
  induction ps with
  | nil => intro s _ _ _; exact ⟨rfl, rfl, rfl⟩
  | cons d rest ih =>
    intro s hrep hnd hseen
    obtain ⟨⟨mkt, slug, o, b⟩, hv⟩ :=
      Option.isSome_iff_exists.mp (hrep d (List.mem_cons_self d rest))
    obtain ⟨ls, hlook, ho⟩ := hseen d (List.mem_cons_self d rest) mkt slug o b hv
    have hstep := pp_same cfg env s d mkt slug o b ls hv hlook ho
    have hnd2 := by rw [slugsOf_cons_of_view d rest mkt slug o b hv] at hnd; exact hnd
    have hnotmem : slug ∉ slugsOf rest := (List.nodup_cons.mp hnd2).1
    have hndrest : (slugsOf rest).Nodup := (List.nodup_cons.mp hnd2).2
    set s1 : EngineState := { s with lastSeen := put s.lastSeen slug ⟨o, b⟩ } with hs1
    have hseen1 : AllSeenSame s1 rest := by
      intro d2 hd2 mkt2 slug2 o2 b2 hv2
      have hne : slug ≠ slug2 := by
        intro heq
        exact hnotmem (heq ▸ mem_slugsOf d2 rest mkt2 slug2 o2 b2 hd2 hv2)
      obtain ⟨ls2, hl2, ho2⟩ := hseen d2 (List.mem_cons_of_mem d hd2) mkt2 slug2 o2 b2 hv2
      exact ⟨ls2, by rw [show look s1.lastSeen slug2 = look s.lastSeen slug2 from
        look_put_ne s.lastSeen _ hne]; exact hl2, ho2⟩
    have hreprest : AllReplicable rest :=
      fun d2 hd2 => hrep d2 (List.mem_cons_of_mem d hd2)
    obtain ⟨htr, hop, hsy⟩ := ih s1 hreprest hndrest hseen1
    rw [List.foldl_cons, hstep]
    exact ⟨htr, hop, hsy⟩

/-- C3: on a true cold start (empty state, initial-sync flag set), a
reconciliation pass over a snapshot of replicable positions with
distinct market slugs records every position into the last-seen map but
submits zero trades (the ledger stays empty) under every chain
environment; the flag — a pass-level property — is cleared only after
the whole pass; and a second pass over the unchanged snapshot again
submits zero trades. -/
theorem C3_cold_start (cfg : LiveConfig) (env : ChainEnv) (ps : List TargetPosition)
    (hne : ps ≠ [])
    (hrep : AllReplicable ps)
    (hnd : (slugsOf ps).Nodup) :
    (runPoll cfg env coldState ps).tracker.trades = []
    ∧ (runPoll cfg env coldState ps).isInitialSync = false
    ∧ (∀ d ∈ ps, ∀ mkt slug o b, replicableView d = some (mkt, slug, o, b) →
        look (runPoll cfg env coldState ps).lastSeen slug = some ⟨o, b⟩)
    ∧ (runPoll cfg env (runPoll cfg env coldState ps) ps).tracker.trades = [] := by
  have hempty : ps.isEmpty = false := by
    cases ps with
    | nil => exact absurd rfl hne
    | cons a t => rfl
  have hrun1 : runPoll cfg env coldState ps
      = { (ps.foldl (processPosition cfg env) coldState) with isInitialSync := false } := by
    unfold runPoll
    rw [hempty]
    rfl
  have hun : AllUnseen coldState ps := by
    intro d hd mkt slug o b hv
    rfl
  obtain ⟨htr, hop, _, hrec, _⟩ :=
    foldl_cold cfg env ps coldState rfl hrep hnd hun
  have h1 : (runPoll cfg env coldState ps).tracker.trades = [] := by
    rw [hrun1]
    show (ps.foldl (processPosition cfg env) coldState).tracker.trades = []
    rw [htr]
    rfl
  have h2 : (runPoll cfg env coldState ps).isInitialSync = false := by
    rw [hrun1]
  have h3 : ∀ d ∈ ps, ∀ mkt slug o b, replicableView d = some (mkt, slug, o, b) →
      look (runPoll cfg env coldState ps).lastSeen slug = some ⟨o, b⟩ := by
    intro d hd mkt slug o b hv
    rw [hrun1]
    exact hrec d hd mkt slug o b hv
  refine ⟨h1, h2, h3, ?_⟩
  have hseen : AllSeenSame (runPoll cfg env coldState ps) ps := by
    intro d hd mkt slug o b hv
    exact ⟨⟨o, b⟩, h3 d hd mkt slug o b hv, rfl⟩
  obtain ⟨htr2, _, _⟩ :=
    foldl_warm cfg env ps (runPoll cfg env coldState ps) hrep hnd hseen
  have hrun2 : runPoll cfg env (runPoll cfg env coldState ps) ps
      = { (ps.foldl (processPosition cfg env) (runPoll cfg env coldState ps)) with
          isInitialSync := false } := by
    unfold runPoll
    rw [hempty]
    rfl
  rw [hrun2]
  show (ps.foldl (processPosition cfg env) (runPoll cfg env coldState ps)).tracker.trades = []
  rw [htr2]
  exact h1

/-- C3 witness: the cold-start theorem applied to a concrete three-market
snapshot under the all-success chain environment. -/
theorem C3_witness :
    (runPoll exLiveConfig envAll coldState coldSnapshot).tracker.trades = []
    ∧ (runPoll exLiveConfig envAll coldState coldSnapshot).isInitialSync = false
    ∧ look (runPoll exLiveConfig envAll coldState coldSnapshot).lastSeen "m1"
        = some ⟨1, 100⟩
    ∧ (runPoll exLiveConfig envAll
        (runPoll exLiveConfig envAll coldState coldSnapshot) coldSnapshot).tracker.trades
        = [] := by
  obtain ⟨h1, h2, h3, h4⟩ :=
    C3_cold_start exLiveConfig envAll coldSnapshot (by decide) (by decide) (by decide)
  exact ⟨h1, h2,
    h3 (mkYesPosition "m1") (by simp [coldSnapshot]) (mkActiveMarket "m1") "m1" 1 100
      (by decide),
    h4⟩

/-! ### C4 — switch ordering: close leg before open leg -/

/-- The close leg appends at most one SELL footprint for its market. -/
theorem replicateClose_tags (cfg : LiveConfig) (env : ChainEnv) (s : EngineState)
    (slug : String) (mkt : MarketInfo) (oi : ℕ) :
    (replicateClose cfg env s slug mkt oi).tracker.trades.map tradeTag
        = s.tracker.trades.map tradeTag
    ∨ (replicateClose cfg env s slug mkt oi).tracker.trades.map tradeTag
        = s.tracker.trades.map tradeTag ++ [(TType.SELL, slug)] := by
  unfold replicateClose
  cases hp : look s.ourPos slug with
  | none => exact Or.inl rfl
  | some p =>
    dsimp only
    by_cases h1 : p.outcomeIndex ≠ oi
    · rw [if_pos h1]; exact Or.inl rfl
    · rw [if_neg h1]
      by_cases h2 : mkt.address.isNone = true
      · rw [if_pos h2]; exact Or.inl rfl
      · rw [if_neg h2]
        by_cases h3 : env.erc1155Balance slug = 0
        · rw [if_pos h3]; exact Or.inl rfl
        · rw [if_neg h3]
          by_cases h4 : (!env.erc1155ApprovalOk slug) = true
          · rw [if_pos h4]; exact Or.inl rfl
          · rw [if_neg h4]
            by_cases h5 : (!env.sellGasOk slug) = true
            · rw [if_pos h5]; exact Or.inl rfl
            · rw [if_neg h5]
              by_cases h6 : (!env.sellTxOk slug) = true
              · rw [if_pos h6]; exact Or.inl rfl
              · rw [if_neg h6]
                exact Or.inr (recordSell_tags s.tracker _)

/-- The open leg appends at most one BUY footprint for its market. -/
theorem replicateOpen_tags (cfg : LiveConfig) (env : ChainEnv) (s : EngineState)
    (slug : String) (mkt : MarketInfo) (oi : ℕ) :
    (replicateOpen cfg env s slug mkt oi).tracker.trades.map tradeTag
        = s.tracker.trades.map tradeTag
    ∨ (replicateOpen cfg env s slug mkt oi).tracker.trades.map tradeTag
        = s.tracker.trades.map tradeTag ++ [(TType.BUY, slug)] := by
  unfold replicateOpen
  by_cases h1 : mkt.address.isNone = true
  · rw [if_pos h1]; exact Or.inl rfl
  · rw [if_neg h1]
    dsimp only
    by_cases h2 : env.usdcBalance slug < liveSizedInvestment cfg
    · rw [if_pos h2]; exact Or.inl rfl
    · rw [if_neg h2]
      by_cases h3 : (!env.approvalOk slug) = true
      · rw [if_pos h3]; exact Or.inl rfl
      · rw [if_neg h3]
        by_cases h4 : (!env.gasOk slug) = true
        · rw [if_pos h4]; exact Or.inl rfl
        · rw [if_neg h4]
          by_cases h5 : (!env.txOk slug) = true
          · rw [if_pos h5]; exact Or.inl rfl
          · rw [if_neg h5]
            exact Or.inr (recordBuy_tags s.tracker _)

/-- The simulator's buy appends at most one BUY footprint. -/
theorem simulateBuy_tags (cfg : SimConfig) (s : SimState) (slug title : String)
    (o : ℕ) (lab : String) (t : ℚ) :
    (simulateBuy cfg s slug title o lab t).1.tracker.trades.map tradeTag
        = s.tracker.trades.map tradeTag
    ∨ (simulateBuy cfg s slug title o lab t).1.tracker.trades.map tradeTag
        = s.tracker.trades.map tradeTag ++ [(TType.BUY, slug)] := by
  unfold simulateBuy
  by_cases h : s.balance < simSizedInvestment cfg t
  · rw [if_pos h]; exact Or.inl rfl
  · rw [if_neg h]
    exact Or.inr (recordBuy_tags s.tracker _)

/-- C4: a SWITCHED event drives the close leg and then the open leg
sequentially, in both paths.  In every execution — including those where
a leg fails — the ledger entries appended by the step are (a possible)
SELL followed by (a possible) BUY for that market, so whenever both
appear the SELL/CLOSED entry strictly precedes the paired BUY/OPENED
entry; the simulator's close leg always succeeds, so its SELL entry is
always appended. -/
theorem C4_switch_ordering :
    (∀ (cfg : LiveConfig) (env : ChainEnv) (s : EngineState) (d : TargetPosition)
        (mkt : MarketInfo) (slug : String) (o : ℕ) (b : ℤ) (ls : LastSeen),
      replicableView d = some (mkt, slug, o, b) →
      look s.lastSeen slug = some ls →
      ls.outcomeIndex ≠ o →
      ∃ tail, (processPosition cfg env s d).tracker.trades.map tradeTag
          = s.tracker.trades.map tradeTag ++ tail
        ∧ (tail = [] ∨ tail = [(TType.SELL, slug)] ∨ tail = [(TType.BUY, slug)]
            ∨ tail = [(TType.SELL, slug), (TType.BUY, slug)]))
    ∧ (∀ (cfg : SimConfig) (s : SimState) (d : TargetPosition) (mkt : MarketInfo)
        (slug : String) (tb : TokensBalance) (o : ℕ) (b : ℤ) (p : SimPos),
      d.market = some mkt → mkt.slug = some slug → d.tokensBalance = some tb →
      determineTargetOutcome tb.yes tb.no = some (o, b) →
      mkt.status ≠ "RESOLVED" → look s.positions slug = some p → p.outcome ≠ o →
      ∃ tail, (simStep cfg s d).tracker.trades.map tradeTag
          = s.tracker.trades.map tradeTag ++ tail
        ∧ (tail = [(TType.SELL, slug)]
            ∨ tail = [(TType.SELL, slug), (TType.BUY, slug)])) := by
  constructor
  · intro cfg env s d mkt slug o b ls hv hlook hne
    rw [pp_of_view cfg env s d mkt slug o b hv]
    unfold ppReplicableStep
    rw [hlook]
    dsimp only
    rw [if_pos hne]
    dsimp only
    rcases replicateClose_tags cfg env s slug mkt ls.outcomeIndex with hc | hc <;>
      rcases replicateOpen_tags cfg env
        (replicateClose cfg env s slug mkt ls.outcomeIndex) slug mkt o with ho | ho
    · exact ⟨[], by rw [ho, hc, List.append_nil], Or.inl rfl⟩
    · exact ⟨[(TType.BUY, slug)], by rw [ho, hc], by simp⟩
    · exact ⟨[(TType.SELL, slug)], by rw [ho, hc], by simp⟩
    · exact ⟨[(TType.SELL, slug), (TType.BUY, slug)],
        by rw [ho, hc, List.append_assoc]; rfl, by simp⟩
  · intro cfg s d mkt slug tb o b p hm hs htb hdet hres hp hpo
    have hstep : simStep cfg s d
        = (simulateBuy cfg
            ((simulateSell cfg s slug p.outcome (estimateMarketValue p d) none).1)
            slug mkt.title o (if o = 1 then "YES" else "NO")
            (match (if o = 0 then d.costNo else d.costYes) with
             | some c => if c = 0 then cfg.minBet else c / 1000000
             | none => cfg.minBet)).1 := by
      unfold simStep
      rw [hm]
      dsimp only
      rw [hs]
      dsimp only
      rw [htb]
      dsimp only
      rw [hdet]
      dsimp only
      rw [if_neg hres, hp]
      dsimp only
      rw [if_pos hpo]
    obtain ⟨hsell, _⟩ :=
      simulateSell_match cfg s slug p.outcome (estimateMarketValue p d) none p hp rfl
    rw [hstep]
    rcases simulateBuy_tags cfg
        ((simulateSell cfg s slug p.outcome (estimateMarketValue p d) none).1)
        slug mkt.title o (if o = 1 then "YES" else "NO") _ with hb | hb
    · exact ⟨[(TType.SELL, slug)], by rw [hb, hsell], Or.inl rfl⟩
    · exact ⟨[(TType.SELL, slug), (TType.BUY, slug)],
        by rw [hb, hsell, List.append_assoc]; rfl, Or.inr rfl⟩

/-- C4 witness: the ordering statement applied to concrete switched
positions (last seen NO, snapshot YES) on the live and simulated paths,
with every chain call succeeding. -/
theorem C4_witness :
    (∃ tail,
        (processPosition exLiveConfig envAll exSwitchEngineState
            (mkYesPosition "m1")).tracker.trades.map tradeTag
          = exSwitchEngineState.tracker.trades.map tradeTag ++ tail
        ∧ (tail = [] ∨ tail = [(TType.SELL, "m1")] ∨ tail = [(TType.BUY, "m1")]
            ∨ tail = [(TType.SELL, "m1"), (TType.BUY, "m1")]))
    ∧ (∃ tail,
        (simStep exSimConfig exSwitchSimState (mkYesPosition "m1")).tracker.trades.map tradeTag
          = exSwitchSimState.tracker.trades.map tradeTag ++ tail
        ∧ (tail = [(TType.SELL, "m1")]
            ∨ tail = [(TType.SELL, "m1"), (TType.BUY, "m1")])) :=
  ⟨C4_switch_ordering.1 exLiveConfig envAll exSwitchEngineState (mkYesPosition "m1")
      (mkActiveMarket "m1") "m1" 1 100 ⟨0, 80⟩ (by decide) rfl (by decide),
   C4_switch_ordering.2 exSimConfig exSwitchSimState (mkYesPosition "m1")
      (mkActiveMarket "m1") "m1" { yes := 100, no := 0 } 1 100
      { outcome := 0, outcomeLabel := "NO", invested := 10
        tokens := 98 / 10, marketTitle := "m1" }
      rfl rfl rfl (by decide) (by decide) rfl (by decide)⟩

/-! ### C10 — the simulator's balance never goes negative -/

/-- An insufficient balance makes `simulateBuy` fail with everything
unchanged. -/
theorem simulateBuy_insufficient (cfg : SimConfig) (s : SimState) (slug title : String)
    (o : ℕ) (lab : String) (t : ℚ)
    (h : s.balance < simSizedInvestment cfg t) :
    simulateBuy cfg s slug title o lab t = (s, false) := by
  unfold simulateBuy
  rw [if_pos h]

theorem simulateBuy_inv (cfg : SimConfig) (s : SimState) (slug title : String)
    (o : ℕ) (lab : String) (t : ℚ)
    (hcfg : SimConfigOk cfg) (hs : SimInv s) :
    SimInv (simulateBuy cfg s slug title o lab t).1 := by
  unfold simulateBuy
  by_cases h : s.balance < simSizedInvestment cfg t
  · rw [if_pos h]; exact hs
  · rw [if_neg h]
    refine ⟨sub_nonneg.mpr (not_lt.mp h), ?_⟩
    intro q hq
    rcases mem_put hq with rfl | hq2
    · exact le_trans hcfg.1 (le_max_left _ _)
    · exact hs.2 q hq2

theorem sellReturnAmount_nonneg (cfg : SimConfig) (position : SimPos) (o : ℕ)
    (mv : Option ℚ) (w : Option ℕ)
    (_hfee0 : 0 ≤ cfg.feeBps) (hfee1 : cfg.feeBps ≤ 10000)
    (hinv : 0 ≤ position.invested)
    (hmv : ∀ v, mv = some v → 0 ≤ v) :
    0 ≤ sellReturnAmount cfg position o mv w := by
  have hfle : cfg.feeBps / 10000 ≤ 1 := by
    rw [div_le_one (by norm_num : (0:ℚ) < 10000)]
    exact hfee1
  unfold sellReturnAmount
  cases w with
  | some w2 =>
    dsimp only
    by_cases hw : w2 = o
    · rw [if_pos hw]
      exact mul_nonneg hinv (sub_nonneg.mpr hfle)
    · rw [if_neg hw]
  | none =>
    cases mv with
    | none => exact mul_nonneg hinv (by norm_num)
    | some v =>
      dsimp only
      by_cases hv : v = 0
      · rw [if_pos hv]
        exact mul_nonneg hinv (by norm_num)
      · rw [if_neg hv]
        exact hmv v rfl

theorem simulateSell_inv (cfg : SimConfig) (s : SimState) (slug : String) (o : ℕ)
    (mv : Option ℚ) (w : Option ℕ)
    (hcfg : SimConfigOk cfg) (hmv : ∀ v, mv = some v → 0 ≤ v) (hs : SimInv s) :
    SimInv (simulateSell cfg s slug o mv w).1 := by
  obtain ⟨_, hfee0, hfee1⟩ := hcfg
  unfold simulateSell
  cases hp : look s.positions slug with
  | none => exact hs
  | some p =>
    dsimp only
    by_cases hpo : p.outcome ≠ o
    · rw [if_pos hpo]; exact hs
    · rw [if_neg hpo]
      have hinv : 0 ≤ p.invested := hs.2 (slug, p) (look_mem s.positions slug p hp)
      have hra : 0 ≤ sellReturnAmount cfg p o mv w :=
        sellReturnAmount_nonneg cfg p o mv w hfee0 hfee1 hinv hmv
      have hf0 : 0 ≤ cfg.feeBps / 10000 := div_nonneg hfee0 (by norm_num)
      have hfle : cfg.feeBps / 10000 ≤ 1 := by
        rw [div_le_one (by norm_num : (0:ℚ) < 10000)]
        exact hfee1
      have hnet : 0 ≤ sellReturnAmount cfg p o mv w
          - sellReturnAmount cfg p o mv w * (cfg.feeBps / 10000) := by
        have : sellReturnAmount cfg p o mv w * (cfg.feeBps / 10000)
            ≤ sellReturnAmount cfg p o mv w * 1 :=
          mul_le_mul_of_nonneg_left hfle hra
        rw [mul_one] at this
        exact sub_nonneg.mpr this
      refine ⟨add_nonneg hs.1 hnet, ?_⟩
      intro q hq
      exact hs.2 q (mem_del hq)

theorem foldl_simInv (cfg : SimConfig) (hcfg : SimConfigOk cfg) :
    ∀ (ops : List SimOp) (s : SimState),
      (∀ op ∈ ops, SimOpOk op) → SimInv s →
      SimInv (ops.foldl (applySimOp cfg) s) := by
  intro ops
  induction ops with
  | nil => intro s _ hs; exact hs
  | cons op rest ih =>
    intro s hok hs
    rw [List.foldl_cons]
    refine ih _ (fun op2 h2 => hok op2 (List.mem_cons_of_mem op h2)) ?_
    cases op with
    | buyCall slug title o lab t =>
      exact simulateBuy_inv cfg s slug title o lab t hcfg hs
    | sellCall slug o mv w =>
      exact simulateSell_inv cfg s slug o mv w hcfg
        (hok (SimOp.sellCall slug o mv w) (List.mem_cons_self _ _)) hs

/-- C10: `simulateBuy` fails (returning `false` with the state — balance,
positions and ledger — untouched) whenever the balance cannot cover the
clamped investment, and consequently, starting from a non-negative
virtual balance, every sequence of `simulateBuy`/`simulateSell` calls
keeps the balance non-negative, provided the configured minimum bet and
fee are non-negative, the fee is at most 10000 basis points, and every
supplied market-value estimate is non-negative. -/
theorem C10_balance_nonneg :
    (∀ (cfg : SimConfig) (s : SimState) (slug title : String) (o : ℕ) (lab : String)
        (t : ℚ),
      s.balance < simSizedInvestment cfg t →
      simulateBuy cfg s slug title o lab t = (s, false))
    ∧ (∀ cfg : SimConfig, SimConfigOk cfg → 0 ≤ cfg.startingBalance →
        ∀ ops : List SimOp, (∀ op ∈ ops, SimOpOk op) →
        0 ≤ (ops.foldl (applySimOp cfg) (initSimState cfg)).balance) := by
  constructor
  · exact simulateBuy_insufficient
  · intro cfg hcfg hb ops hok
    have hinit : SimInv (initSimState cfg) := by
      refine ⟨hb, ?_⟩
      intro q hq
      cases hq
    exact (foldl_simInv cfg hcfg ops (initSimState cfg) hok hinit).1

/-- C10 witness: a balance of 1 cannot cover the example's clamped
investment of 50 and the buy is a no-op; a concrete buy-sell-buy call
sequence from the configured starting balance keeps the balance
non-negative. -/
theorem C10_witness :
    simulateBuy exSimConfig brokeSimState "m1" "m1" 1 "YES" 200 = (brokeSimState, false)
    ∧ 0 ≤ ((exSimOps.foldl (applySimOp exSimConfig) (initSimState exSimConfig)).balance) :=
  ⟨C10_balance_nonneg.1 exSimConfig brokeSimState "m1" "m1" 1 "YES" 200
      (by norm_num [brokeSimState, simSizedInvestment, exSimConfig, min_def, max_def]),
   C10_balance_nonneg.2 exSimConfig
      (by norm_num [SimConfigOk, exSimConfig])
      (by norm_num [exSimConfig])
      exSimOps
      (by
        intro op hop
        rcases List.mem_cons.mp hop with rfl | hop2
        · trivial
        rcases List.mem_cons.mp hop2 with rfl | hop3
        · exact fun v h => nomatch h
        rcases List.mem_cons.mp hop3 with rfl | hop4
        · trivial
        · cases hop4)⟩

end LimitlessBot
